import Mathlib

/-!
Address-resolution engine (src/src/arp.c), Ethernet framing (src/src/ethernet.c)
and ICMP (src/src/icmp.c)

A shallow embedding of the ARP engine of the stack, of the Ethernet layer under
it and of the ICMP handlers.  Bytes are natural numbers,
a pointer into a buffer is an offset into its backing array, and the two global
maps and the global transmit buffer are fields of an explicit `State`.  Every
call of `ethernet_out` made by an engine operation is recorded, with its three
arguments as they are at the call, in the list the operation returns next to the
new state.  The clock reading `now` is an input of every operation; it does not
advance inside one call.
-/

namespace NetStack

/-! ## Constants of the headers (net.h, arp.h, ethernet.h) -/

/-- Length of a link address in bytes. -/
def NET_MAC_LEN : Nat := 6

/-- Length of an IPv4 address in bytes. -/
def NET_IP_LEN : Nat := 4

/-- Hardware type of Ethernet in an ARP packet. -/
def ARP_HW_ETHER : Nat := 0x1

/-- Opcode of an ARP request. -/
def ARP_REQUEST : Nat := 0x1

/-- Opcode of an ARP reply. -/
def ARP_REPLY : Nat := 0x2

/-- Protocol identifier of ARP in an Ethernet header. -/
def NET_PROTOCOL_ARP : Nat := 0x0806

/-- Protocol identifier of IPv4 in an Ethernet header. -/
def NET_PROTOCOL_IP : Nat := 0x0800

/-- Smallest payload an Ethernet frame carries. -/
def ETHERNET_MIN_TRANSPORT_UNIT : Nat := 46

/-- Size of `ether_hdr_t`: destination, source, protocol. -/
def sizeof_ether_hdr_t : Nat := 14

/-- Size of `arp_pkt_t`, the fixed ARP header for Ethernet and IPv4. -/
def sizeof_arp_pkt_t : Nat := 28

/-- The `swap16` byte swap on a 16-bit value. -/
def swap16 (x : Nat) : Nat := (x % 256) * 256 + (x / 256) % 256

/-! ## Addresses -/

/-- A `uint8_t[NET_IP_LEN]` array. -/
structure ip_addr where
  b0 : Nat
  b1 : Nat
  b2 : Nat
  b3 : Nat
deriving DecidableEq

/-- A `uint8_t[NET_MAC_LEN]` array. -/
structure mac_addr where
  b0 : Nat
  b1 : Nat
  b2 : Nat
  b3 : Nat
  b4 : Nat
  b5 : Nat
deriving DecidableEq

/-- The bytes of an IPv4 address in memory order. -/
def ip_bytes (a : ip_addr) : List Nat := [a.b0, a.b1, a.b2, a.b3]

/-- The bytes of a link address in memory order. -/
def mac_bytes (m : mac_addr) : List Nat := [m.b0, m.b1, m.b2, m.b3, m.b4, m.b5]

/-- The link-layer broadcast address `ether_broadcast_mac`. -/
def ether_broadcast_mac : mac_addr := ⟨0xFF, 0xFF, 0xFF, 0xFF, 0xFF, 0xFF⟩

/-- The all-zero link address. -/
def zero_mac : mac_addr := ⟨0, 0, 0, 0, 0, 0⟩

/-- The all-zero IPv4 address. -/
def zero_ip : ip_addr := ⟨0, 0, 0, 0⟩

/-- The C library `memcmp` on the first `n` bytes of two arrays. -/
def memcmp : List Nat → List Nat → Nat → Int
  | _, _, 0 => 0
  | a :: as, b :: bs, n + 1 =>
      if a < b then -1 else if b < a then 1 else memcmp as bs n
  | _, _, _ + 1 => 0

/-! ## Memory and buffers -/

/-- The byte at offset `off` of a backing array. -/
def mem_byte (mem : List Nat) (off : Nat) : Nat := mem.getD off 0

/-- The `n` bytes of a backing array that start at offset `off`. -/
def mem_read : List Nat → Nat → Nat → List Nat
  | _, _, 0 => []
  | mem, off, n + 1 => mem_byte mem off :: mem_read mem (off + 1) n

/-- The C library `memcpy` of the bytes `src` to offset `off` of a backing array. -/
def memcpy (mem : List Nat) (off : Nat) (src : List Nat) : List Nat :=
  mem.take off ++ src ++ mem.drop (off + src.length)

/-- The C library `memset` of `n` bytes of value `v` at offset `off`. -/
def memset (mem : List Nat) (off : Nat) (v : Nat) (n : Nat) : List Nat :=
  memcpy mem off (List.replicate n v)

/-- A `buf_t`: the valid length, the data pointer as an offset into `payload`,
and the backing array. -/
structure buf_t where
  len : Nat
  data : Nat
  payload : List Nat
deriving DecidableEq

/-- The valid bytes of a buffer, `data[0 .. len)`. -/
def buf_bytes (b : buf_t) : List Nat := mem_read b.payload b.data b.len

/-- Modelled from the spec: the buffer primitive `buf_init` is declared in a header
that is not among the sources; it sets the valid length and places the data
pointer `len` bytes before the middle of the backing array, without touching
the bytes, and reports failure when `len` does not fit. -/
def buf_init (BUF_MAX_LEN : Nat) (buf : buf_t) (len : Nat) : buf_t × Int :=
  if BUF_MAX_LEN / 2 ≤ len then (buf, -1)
  else ({ buf with len := len, data := BUF_MAX_LEN / 2 - len }, 0)

/-- Modelled from the spec: the buffer primitive for header insertion; it moves
the data pointer `len` bytes down and reports failure when there is no room. -/
def buf_add_header (buf : buf_t) (len : Nat) : buf_t × Int :=
  if buf.data < len then (buf, -1)
  else ({ buf with len := buf.len + len, data := buf.data - len }, 0)

/-- Modelled from the spec: the buffer primitive for header removal; it moves
the data pointer `len` bytes up and reports failure on a shorter buffer. -/
def buf_remove_header (buf : buf_t) (len : Nat) : buf_t × Int :=
  if buf.len < len then (buf, -1)
  else ({ buf with len := buf.len - len, data := buf.data + len }, 0)

/-- Modelled from the spec: the buffer primitive for padding; it appends `len`
zero bytes and reports failure when they do not fit in the backing array. -/
def buf_add_padding (BUF_MAX_LEN : Nat) (buf : buf_t) (len : Nat) : buf_t × Int :=
  if BUF_MAX_LEN ≤ buf.data + buf.len + len then (buf, -1)
  else ({ buf with len := buf.len + len,
                   payload := memset buf.payload (buf.data + buf.len) 0 len }, 0)

/-! ## The time-bounded map -/

/-- One entry of a time-bounded map: key, value and the time of the last write. -/
structure map_entry (V : Type) where
  key : ip_addr
  value : V
  stamp : Nat
deriving DecidableEq

/-- Modelled from the spec: the time-bounded map `map_t` keyed by IPv4 addresses
(map.c is not among the sources): its capacity, the configured lifetime and its
entries. -/
structure map_t (V : Type) where
  max_size : Nat
  timeout : Nat
  entries : List (map_entry V)
deriving DecidableEq

/-- Modelled from the spec: `map_init` gives an empty store with the given capacity
and entry lifetime; the capacity argument 0 stands for the default of the
implementation, `default_len`. -/
def map_init {V : Type} (default_len max_len timeout : Nat) : map_t V :=
  ⟨if max_len = 0 then default_len else max_len, timeout, []⟩

/-- Modelled from the spec: `map_get`, the point lookup without side effects; an
entry older than the lifetime reads as absent. -/
def map_get {V : Type} (m : map_t V) (now : Nat) (key : ip_addr) : Option V :=
  match m.entries.find? (fun e => decide (e.key = key)) with
  | some e => if now ≤ e.stamp + m.timeout then some e.value else none
  | none => none

/-- Modelled from the spec: the oldest entry of a store, the one written first. -/
def map_oldest {V : Type} : List (map_entry V) → Option (map_entry V)
  | [] => none
  | e :: es =>
      match map_oldest es with
      | none => some e
      | some o => if e.stamp ≤ o.stamp then some e else some o

/-- Modelled from the spec: an insert of `key` needs no eviction: the store holds
the key already or is below its capacity. -/
def map_has_room {V : Type} (m : map_t V) (key : ip_addr) : Bool :=
  m.entries.any (fun e => decide (e.key = key)) || decide (m.entries.length < m.max_size)

/-- Modelled from the spec: the entries left when the bounded store evicts its
oldest entry to make room. -/
def map_evict {V : Type} (m : map_t V) : List (map_entry V) :=
  match map_oldest m.entries with
  | none => m.entries
  | some o => m.entries.filter (fun e => decide (e.key ≠ o.key))

/-- Modelled from the spec: `map_set`, insert-or-overwrite that resets the age of
the entry and always succeeds; a full store that does not hold the key evicts its
oldest entry first. -/
def map_set {V : Type} (m : map_t V) (now : Nat) (key : ip_addr) (value : V) : map_t V :=
  let kept := if map_has_room m key then m.entries else map_evict m
  { m with entries := ⟨key, value, now⟩ :: kept.filter (fun e => decide (e.key ≠ key)) }

/-- Modelled from the spec: `map_delete` removes the entry of a key. -/
def map_delete {V : Type} (m : map_t V) (key : ip_addr) : map_t V :=
  { m with entries := m.entries.filter (fun e => decide (e.key ≠ key)) }

/-! ## Ethernet output (src/src/ethernet.c) -/

/-- The build-time configuration: the local address pair (`NET_IF_IP`,
`NET_IF_MAC`, which also initialise `net_if_ip` and `net_if_mac`), the size of a
backing array, the lifetimes of the two maps, and the capacities the store gives
a map of link addresses and a map of buffers when it is asked for its default. -/
structure Config where
  net_if_ip : ip_addr
  net_if_mac : mac_addr
  BUF_MAX_LEN : Nat
  ARP_TIMEOUT_SEC : Nat
  ARP_MIN_INTERVAL : Nat
  MAP_DEFAULT_LEN_MAC : Nat
  MAP_DEFAULT_LEN_BUF : Nat
deriving DecidableEq

/-- The two bytes of a 16-bit value in the memory order of the host
(little-endian). -/
def u16_bytes (x : Nat) : List Nat := [x % 256, (x / 256) % 256]

/-- The 16-bit value stored at offset `off` in the memory order of the host. -/
def u16_at (mem : List Nat) (off : Nat) : Nat :=
  mem_byte mem off + 256 * mem_byte mem (off + 1)

/-- The function `ethernet_out`: the buffer as it leaves the function, and the
frame handed to `driver_send` when that call is reached. -/
def ethernet_out (cfg : Config) (buf : buf_t) (mac : mac_addr) (protocol : Nat) :
    buf_t × Option (List Nat) :=
  let r1 : buf_t × Int :=
    if buf.len < ETHERNET_MIN_TRANSPORT_UNIT then
      buf_add_padding cfg.BUF_MAX_LEN buf (ETHERNET_MIN_TRANSPORT_UNIT - buf.len)
    else (buf, 0)
  if r1.2 ≠ 0 then (r1.1, none)
  else
    let r2 := buf_add_header r1.1 sizeof_ether_hdr_t
    if r2.2 ≠ 0 then (r2.1, none)
    else
      let b := r2.1
      let p1 := memcpy b.payload b.data (mac_bytes mac)
      let p2 := memcpy p1 (b.data + NET_MAC_LEN) (mac_bytes cfg.net_if_mac)
      let p3 := memcpy p2 (b.data + 2 * NET_MAC_LEN) (u16_bytes (swap16 (protocol % 65536)))
      let b3 : buf_t := { b with payload := p3 }
      (b3, some (buf_bytes b3))

/-- One call of `ethernet_out`: the buffer, the destination link address and the
protocol identifier it is given. -/
structure eth_call where
  buf : buf_t
  mac : mac_addr
  protocol : Nat
deriving DecidableEq

/-! ## ARP packets -/

/-- The struct `arp_pkt_t`; the 16-bit fields hold the value the host reads. -/
structure arp_pkt_t where
  hw_type16 : Nat
  pro_type16 : Nat
  hw_len : Nat
  pro_len : Nat
  opcode16 : Nat
  sender_mac : mac_addr
  sender_ip : ip_addr
  target_mac : mac_addr
  target_ip : ip_addr
deriving DecidableEq

/-- The link address stored at offset `off`. -/
def mac_at (mem : List Nat) (off : Nat) : mac_addr :=
  ⟨mem_byte mem off, mem_byte mem (off + 1), mem_byte mem (off + 2),
   mem_byte mem (off + 3), mem_byte mem (off + 4), mem_byte mem (off + 5)⟩

/-- The IPv4 address stored at offset `off`. -/
def ip_at (mem : List Nat) (off : Nat) : ip_addr :=
  ⟨mem_byte mem off, mem_byte mem (off + 1), mem_byte mem (off + 2), mem_byte mem (off + 3)⟩

/-- The struct seen through the cast `(arp_pkt_t *)` of a pointer at offset `off`. -/
def arp_pkt_at (mem : List Nat) (off : Nat) : arp_pkt_t :=
  { hw_type16 := u16_at mem off
    pro_type16 := u16_at mem (off + 2)
    hw_len := mem_byte mem (off + 4)
    pro_len := mem_byte mem (off + 5)
    opcode16 := u16_at mem (off + 6)
    sender_mac := mac_at mem (off + 8)
    sender_ip := ip_at mem (off + 14)
    target_mac := mac_at mem (off + 18)
    target_ip := ip_at mem (off + 24) }

/-- The 28 bytes of the struct in memory order. -/
def arp_pkt_bytes (p : arp_pkt_t) : List Nat :=
  u16_bytes p.hw_type16 ++ u16_bytes p.pro_type16 ++ [p.hw_len, p.pro_len] ++
  u16_bytes p.opcode16 ++ mac_bytes p.sender_mac ++ ip_bytes p.sender_ip ++
  mac_bytes p.target_mac ++ ip_bytes p.target_ip

/-- The constant `arp_init_pkt`; the fields its initialiser leaves out are zero. -/
def arp_init_pkt (cfg : Config) : arp_pkt_t :=
  { hw_type16 := swap16 ARP_HW_ETHER
    pro_type16 := swap16 NET_PROTOCOL_IP
    hw_len := NET_MAC_LEN
    pro_len := NET_IP_LEN
    opcode16 := 0
    sender_mac := cfg.net_if_mac
    sender_ip := cfg.net_if_ip
    target_mac := zero_mac
    target_ip := zero_ip }

/-! ## The engine (src/src/arp.c) -/

/-- The globals of arp.c and the transmit buffer: `arp_table`, `arp_buf`, `txbuf`. -/
structure State where
  arp_table : map_t mac_addr
  arp_buf : map_t buf_t
  txbuf : buf_t
deriving DecidableEq

/-- The local `arp_pkt` that `arp_req` fills in steps 2 and 3. -/
def arp_req_pkt (cfg : Config) (target_ip : ip_addr) : arp_pkt_t :=
  { arp_init_pkt cfg with
    target_ip := target_ip
    target_mac := ether_broadcast_mac
    opcode16 := swap16 ARP_REQUEST }

/-- The function `arp_req`.  The local packet `arp_req_pkt` is filled but never
copied into `txbuf`: the buffer goes to `ethernet_out` as `buf_init` leaves it. -/
def arp_req (cfg : Config) (s : State) (now : Nat) (target_ip : ip_addr) :
    State × List eth_call :=
  match map_get s.arp_table now target_ip with
  | some _ => (s, [])
  | none =>
      let tx := (buf_init cfg.BUF_MAX_LEN s.txbuf sizeof_arp_pkt_t).1
      let tx2 := (ethernet_out cfg tx ether_broadcast_mac NET_PROTOCOL_ARP).1
      ({ s with txbuf := tx2 }, [⟨tx, ether_broadcast_mac, NET_PROTOCOL_ARP⟩])

/-- The local `arp_pkt` that `arp_resp` fills. -/
def arp_resp_pkt (cfg : Config) (target_ip : ip_addr) (target_mac : mac_addr) : arp_pkt_t :=
  { arp_init_pkt cfg with
    opcode16 := swap16 ARP_REPLY
    hw_type16 := swap16 ARP_HW_ETHER
    pro_type16 := swap16 NET_PROTOCOL_IP
    hw_len := NET_MAC_LEN
    pro_len := NET_IP_LEN
    sender_ip := cfg.net_if_ip
    sender_mac := cfg.net_if_mac
    target_ip := target_ip
    target_mac := target_mac }

/-- The function `arp_resp`. -/
def arp_resp (cfg : Config) (s : State) (target_ip : ip_addr) (target_mac : mac_addr) :
    State × List eth_call :=
  let tx0 := (buf_init cfg.BUF_MAX_LEN s.txbuf sizeof_arp_pkt_t).1
  let tx : buf_t :=
    { tx0 with payload := memcpy tx0.payload tx0.data (arp_pkt_bytes (arp_resp_pkt cfg target_ip target_mac)) }
  let tx2 := (ethernet_out cfg tx target_mac NET_PROTOCOL_ARP).1
  ({ s with txbuf := tx2 }, [⟨tx, target_mac, NET_PROTOCOL_ARP⟩])

/-- The function `arp_in`.  In the flush branch `ethernet_out` works on the stored
buffer in place and the entry is deleted right after, so only the deletion shows
in the new state. -/
def arp_in (cfg : Config) (s : State) (now : Nat) (buf : buf_t) (src_mac : mac_addr) :
    State × List eth_call :=
  if buf.len < sizeof_arp_pkt_t then (s, [])
  else
    let arp_pkt := arp_pkt_at buf.payload buf.data
    if swap16 arp_pkt.hw_type16 ≠ ARP_HW_ETHER then (s, [])
    else if swap16 arp_pkt.pro_type16 ≠ NET_PROTOCOL_IP then (s, [])
    else if arp_pkt.hw_len ≠ NET_MAC_LEN then (s, [])
    else if arp_pkt.pro_len ≠ NET_IP_LEN then (s, [])
    else
      let opcode := swap16 arp_pkt.opcode16
      if opcode ≠ ARP_REQUEST ∧ opcode ≠ ARP_REPLY then (s, [])
      else
        let s1 : State := { s with arp_table := map_set s.arp_table now arp_pkt.sender_ip src_mac }
        match map_get s1.arp_buf now arp_pkt.sender_ip with
        | some cached_buf =>
            ({ s1 with arp_buf := map_delete s1.arp_buf arp_pkt.sender_ip },
             [⟨cached_buf, arp_pkt.sender_mac, NET_PROTOCOL_IP⟩])
        | none =>
            if opcode = ARP_REQUEST ∧
                memcmp (ip_bytes arp_pkt.target_ip) (ip_bytes cfg.net_if_ip) NET_IP_LEN = 0 then
              arp_resp cfg s1 arp_pkt.sender_ip arp_pkt.sender_mac
            else (s1, [])

/-- The buffer a caller hands to `arp_out` by pointer: the global `txbuf` itself,
as the senders of icmp.c do, or a buffer of the caller's own. -/
inductive pkt_ref where
  | txbuf
  | own (buf : buf_t)
deriving DecidableEq

/-- The buffer behind the pointer. -/
def pkt_buf (s : State) : pkt_ref → buf_t
  | .txbuf => s.txbuf
  | .own buf => buf

/-- The state after a write through the pointer: `txbuf` changes when the pointer
is to `txbuf`; a buffer of the caller's own is no part of the state. -/
def pkt_write (s : State) (pkt : pkt_ref) (buf : buf_t) : State :=
  match pkt with
  | .txbuf => { s with txbuf := buf }
  | .own _ => s

/-- The function `arp_out`.  On a hit `ethernet_out` pads the caller's buffer and
writes the header in front of it in place; on a miss `map_set` stores a copy of
the buffer. -/
def arp_out (cfg : Config) (s : State) (now : Nat) (pkt : pkt_ref) (ip : ip_addr) :
    State × List eth_call :=
  let buf := pkt_buf s pkt
  match map_get s.arp_table now ip with
  | some mac =>
      (pkt_write s pkt (ethernet_out cfg buf mac NET_PROTOCOL_IP).1,
       [⟨buf, mac, NET_PROTOCOL_IP⟩])
  | none =>
      match map_get s.arp_buf now ip with
      | some _ => (s, [])
      | none =>
          let s1 : State := { s with arp_buf := map_set s.arp_buf now ip buf }
          arp_req cfg s1 now ip

/-- The function `arp_init`, entered with the transmit buffer `txbuf` as it is at
that moment; the registration of the handler has no effect on the state. -/
def arp_init (cfg : Config) (txbuf : buf_t) (now : Nat) : State × List eth_call :=
  let s0 : State :=
    { arp_table := map_init cfg.MAP_DEFAULT_LEN_MAC 0 cfg.ARP_TIMEOUT_SEC
      arp_buf := map_init cfg.MAP_DEFAULT_LEN_BUF 0 cfg.ARP_MIN_INTERVAL
      txbuf := txbuf }
  arp_req cfg s0 now cfg.net_if_ip

/-! ## Predicates the properties are stated with -/

/-- The inbound payload passes all the validation checks: long enough, hardware
type Ethernet, protocol type IPv4, address lengths 6 and 4, opcode request or
reply. -/
def arp_valid (buf : buf_t) : Prop :=
  sizeof_arp_pkt_t ≤ buf.len ∧
  swap16 (arp_pkt_at buf.payload buf.data).hw_type16 = ARP_HW_ETHER ∧
  swap16 (arp_pkt_at buf.payload buf.data).pro_type16 = NET_PROTOCOL_IP ∧
  (arp_pkt_at buf.payload buf.data).hw_len = NET_MAC_LEN ∧
  (arp_pkt_at buf.payload buf.data).pro_len = NET_IP_LEN ∧
  (swap16 (arp_pkt_at buf.payload buf.data).opcode16 = ARP_REQUEST ∨
   swap16 (arp_pkt_at buf.payload buf.data).opcode16 = ARP_REPLY)

instance arp_valid_decidable (buf : buf_t) : Decidable (arp_valid buf) := by
  unfold arp_valid
  infer_instance

/-! ## Sample data -/

/-- A configuration with local address 10.0.0.1 / AA and small backing arrays. -/
def cfgA : Config :=
  { net_if_ip := ⟨10, 0, 0, 1⟩
    net_if_mac := ⟨0xAA, 0xAA, 0xAA, 0xAA, 0xAA, 0xAA⟩
    BUF_MAX_LEN := 160
    ARP_TIMEOUT_SEC := 60
    ARP_MIN_INTERVAL := 1
    MAP_DEFAULT_LEN_MAC := 4
    MAP_DEFAULT_LEN_BUF := 4 }

/-- The address 10.0.0.2. -/
def ipB : ip_addr := ⟨10, 0, 0, 2⟩

/-- The link address BB. -/
def macB : mac_addr := ⟨0xBB, 0xBB, 0xBB, 0xBB, 0xBB, 0xBB⟩

/-- The link address CC. -/
def macC : mac_addr := ⟨0xCC, 0xCC, 0xCC, 0xCC, 0xCC, 0xCC⟩

/-- A zero-filled transmit buffer, as a global is at program start. -/
def txZero : buf_t := ⟨0, 0, List.replicate 160 0⟩

/-- The state with empty cache, empty pending store and zero-filled `txbuf`. -/
def sEmpty : State := ⟨map_init 4 0 60, map_init 4 0 1, txZero⟩

/-- A three-byte outbound packet with 20 bytes of headroom. -/
def pktP : buf_t := ⟨3, 20, List.replicate 20 0 ++ [7, 8, 9]⟩

/-- Another outbound packet. -/
def pktQ : buf_t := ⟨2, 20, List.replicate 20 0 ++ [5, 6]⟩

/-- A buffer that holds exactly the given ARP packet. -/
def arp_buf_of (p : arp_pkt_t) : buf_t := ⟨sizeof_arp_pkt_t, 0, arp_pkt_bytes p⟩

/-- A well-formed reply from 10.0.0.2 / BB to the local host. -/
def replyB : buf_t :=
  arp_buf_of
    { hw_type16 := swap16 ARP_HW_ETHER, pro_type16 := swap16 NET_PROTOCOL_IP,
      hw_len := 6, pro_len := 4, opcode16 := swap16 ARP_REPLY,
      sender_mac := macB, sender_ip := ipB,
      target_mac := cfgA.net_if_mac, target_ip := cfgA.net_if_ip }

/-- A well-formed request from 10.0.0.2 / BB for the local address. -/
def requestB : buf_t :=
  arp_buf_of
    { hw_type16 := swap16 ARP_HW_ETHER, pro_type16 := swap16 NET_PROTOCOL_IP,
      hw_len := 6, pro_len := 4, opcode16 := swap16 ARP_REQUEST,
      sender_mac := macB, sender_ip := ipB,
      target_mac := zero_mac, target_ip := cfgA.net_if_ip }

/-- The reply `replyB` with its opcode replaced by 3, every other field valid. -/
def badOpcodeB : buf_t :=
  arp_buf_of
    { hw_type16 := swap16 ARP_HW_ETHER, pro_type16 := swap16 NET_PROTOCOL_IP,
      hw_len := 6, pro_len := 4, opcode16 := swap16 3,
      sender_mac := macB, sender_ip := ipB,
      target_mac := cfgA.net_if_mac, target_ip := cfgA.net_if_ip }

/-- A state whose pending store holds `pktP` under 10.0.0.2, written at time 5. -/
def sPending : State := { sEmpty with arp_buf := map_set sEmpty.arp_buf 5 ipB pktP }

/-- A state whose cache maps 10.0.0.2 to BB, written at time 5. -/
def sCached : State := { sEmpty with arp_table := map_set sEmpty.arp_table 5 ipB macB }

/-- A transmit buffer whose backing array holds the byte 7 everywhere. -/
def txSevens : buf_t := ⟨0, 0, List.replicate 160 7⟩

/-- The transmit buffer `txZero` after `buf_init` for 28 bytes. -/
def txZeroInit : buf_t := ⟨28, 52, List.replicate 160 0⟩

/-- Step 1 of the scenario: the first send of `pktP` to 10.0.0.2, at time 5. -/
def scenario1 : State × List eth_call := arp_out cfgA sEmpty 5 (.own pktP) ipB

/-- Step 2 of the scenario: the reply of 10.0.0.2 / BB arrives from BB, at time 5. -/
def scenario2 : State × List eth_call := arp_in cfgA scenario1.1 5 replyB macB

/-- Step 3 of the scenario: a send of `pktQ` to 10.0.0.2, at time 6. -/
def scenario3 : State × List eth_call := arp_out cfgA scenario2.1 6 (.own pktQ) ipB

/-! ## Transport outcome and runs of the engine -/

/-- The send of one recorded call of `ethernet_out` fails: padding or header
insertion fails, so `driver_send` is not reached, or `driver_send`, whose answer
on a frame is the given function, reports a value other than 0. -/
def eth_call_fails (cfg : Config) (driver_send : List Nat → Int) (c : eth_call) : Bool :=
  match (ethernet_out cfg c.buf c.mac c.protocol).2 with
  | none => true
  | some frame => decide (driver_send frame ≠ 0)

/-- One call into the engine after `arp_init`: `arp_out` or `arp_in`, with the
clock reading and the arguments of the call. -/
inductive arp_op where
  | out (now : Nat) (pkt : pkt_ref) (ip : ip_addr)
  | inp (now : Nat) (buf : buf_t) (src_mac : mac_addr)
deriving DecidableEq

/-- The clock reading of a call. -/
def arp_op_time : arp_op → Nat
  | .out now _ _ => now
  | .inp now _ _ => now

/-- The state after one call. -/
def arp_step (cfg : Config) (s : State) : arp_op → State
  | .out now pkt ip => (arp_out cfg s now pkt ip).1
  | .inp now buf src_mac => (arp_in cfg s now buf src_mac).1

/-- The state after a sequence of calls. -/
def arp_run (cfg : Config) (s : State) : List arp_op → State
  | [] => s
  | op :: ops => arp_run cfg (arp_step cfg s op) ops

/-- The clock never runs backwards along the calls, starting from time `t`. -/
def times_ordered : Nat → List arp_op → Prop
  | _, [] => True
  | t, op :: ops => t ≤ arp_op_time op ∧ times_ordered (arp_op_time op) ops

/-- The clock reading of the last call, or `t` when there is none. -/
def last_time : Nat → List arp_op → Nat
  | t, [] => t
  | _, op :: ops => last_time (arp_op_time op) ops

/-- A state whose transmit buffer holds the three bytes of `pktP` at offset 20 and
whose cache maps 10.0.0.2 to BB. -/
def sCachedTx : State :=
  { sCached with txbuf := ⟨3, 20, List.replicate 20 0 ++ [7, 8, 9] ++ List.replicate 137 0⟩ }

/-- A packet without room for an Ethernet header in front of its data. -/
def pktNoRoom : buf_t := ⟨3, 0, [7, 8, 9] ++ List.replicate 60 0⟩

/-- A state whose pending store holds `pktNoRoom` under 10.0.0.2, written at time 5. -/
def sPendingNoRoom : State := { sEmpty with arp_buf := map_set sEmpty.arp_buf 5 ipB pktNoRoom }

/-- A driver that refuses every frame. -/
def driverDown : List Nat → Int := fun _ => -1

/-- A driver that accepts every frame. -/
def driverUp : List Nat → Int := fun _ => 0

/-- A run of three calls: a send to 10.0.0.2, the reply of 10.0.0.2, and a send of
the transmit buffer itself. -/
def opsScenario : List arp_op :=
  [.out 5 (.own pktP) ipB, .inp 5 replyB macB, .out 6 .txbuf ipB]

/-! ## Ethernet input (src/src/ethernet.c) -/

/-- One call of `net_in`: the buffer with the Ethernet header removed, the
protocol identifier and the source link address. -/
structure net_in_call where
  buf : buf_t
  protocol : Nat
  src : mac_addr
deriving DecidableEq

/-- The function `ethernet_in`: the call of `net_in` it makes, if any.  The header
pointer `hdr` is taken before the header is removed; `ether_hdr_t` is destination,
source, protocol. -/
def ethernet_in (buf : buf_t) : Option net_in_call :=
  if buf.len < sizeof_ether_hdr_t then none
  else
    let hdr := buf.data
    let r := buf_remove_header buf sizeof_ether_hdr_t
    if r.2 ≠ 0 then none
    else
      let protocol := swap16 (u16_at buf.payload (hdr + 2 * NET_MAC_LEN))
      some ⟨r.1, protocol, mac_at buf.payload (hdr + NET_MAC_LEN)⟩

/-- A receive buffer that holds exactly the given frame. -/
def rx_of (frame : List Nat) : buf_t := ⟨frame.length, 0, frame⟩

/-! ## ICMP (src/src/icmp.c) -/

/-- Size of `icmp_hdr_t`: type, code, checksum16, id16, seq16. -/
def sizeof_icmp_hdr_t : Nat := 8

/-- Size of `ip_hdr_t`, the IPv4 header without options. -/
def sizeof_ip_hdr_t : Nat := 20

/-- ICMP type of an echo reply. -/
def ICMP_TYPE_ECHO_REPLY : Nat := 0

/-- ICMP type of a destination-unreachable message. -/
def ICMP_TYPE_UNREACH : Nat := 3

/-- ICMP type of an echo request. -/
def ICMP_TYPE_ECHO_REQUEST : Nat := 8

/-- Protocol identifier of ICMP in an IP header. -/
def NET_PROTOCOL_ICMP : Nat := 1

/-- One call of `ip_out`: the buffer, the destination IP and the protocol it is
given. -/
structure ip_call where
  buf : buf_t
  ip : ip_addr
  protocol : Nat
deriving DecidableEq

/-- The function `icmp_resp`, with the transmit buffer and the function
`checksum16` (not among the sources) as parameters; it returns the transmit
buffer as it is handed to `ip_out` and that call.  Its caller has checked that the
request is at least as long as the header. -/
def icmp_resp (BUF_MAX_LEN : Nat) (checksum16 : List Nat → Nat) (txbuf req_buf : buf_t)
    (src_ip : ip_addr) : buf_t × List ip_call :=
  let tx0 := (buf_init BUF_MAX_LEN txbuf req_buf.len).1
  let p1 := memcpy tx0.payload tx0.data [ICMP_TYPE_ECHO_REPLY]
  let p2 := memcpy p1 (tx0.data + 1) [0]
  let p3 := memcpy p2 (tx0.data + 4) (u16_bytes (u16_at req_buf.payload (req_buf.data + 4)))
  let p4 := memcpy p3 (tx0.data + 6) (u16_bytes (u16_at req_buf.payload (req_buf.data + 6)))
  let p5 := memcpy p4 (tx0.data + sizeof_icmp_hdr_t)
    (mem_read req_buf.payload (req_buf.data + sizeof_icmp_hdr_t)
      (req_buf.len - sizeof_icmp_hdr_t))
  let p6 := memcpy p5 (tx0.data + 2) (u16_bytes 0)
  let p7 := memcpy p6 (tx0.data + 2) (u16_bytes (checksum16 (mem_read p6 tx0.data tx0.len)))
  let tx : buf_t := { tx0 with payload := p7 }
  (tx, [⟨tx, src_ip, NET_PROTOCOL_ICMP⟩])

/-- The function `icmp_in`. -/
def icmp_in (BUF_MAX_LEN : Nat) (checksum16 : List Nat → Nat) (txbuf buf : buf_t)
    (src_ip : ip_addr) : buf_t × List ip_call :=
  if buf.len < sizeof_icmp_hdr_t then (txbuf, [])
  else if mem_byte buf.payload buf.data = ICMP_TYPE_ECHO_REQUEST then
    icmp_resp BUF_MAX_LEN checksum16 txbuf buf src_ip
  else (txbuf, [])

/-- The function `icmp_unreachable`.  The count `data_to_copy` is computed in
`size_t`, modulo 2^64, from the length and the offset of the data pointer; the
second copy reads from `recv_buf->data`, the same place as the first. -/
def icmp_unreachable (BUF_MAX_LEN : Nat) (checksum16 : List Nat → Nat) (txbuf recv_buf : buf_t)
    (src_ip : ip_addr) (code : Nat) : buf_t × List ip_call :=
  let total_len := sizeof_icmp_hdr_t + (sizeof_ip_hdr_t + 8)
  let tx0 := (buf_init BUF_MAX_LEN txbuf total_len).1
  let p1 := memcpy tx0.payload tx0.data [ICMP_TYPE_UNREACH]
  let p2 := memcpy p1 (tx0.data + 1) [code % 256]
  let p3 := memcpy p2 (tx0.data + 4) (u16_bytes 0)
  let p4 := memcpy p3 (tx0.data + 6) (u16_bytes 0)
  let data := tx0.data + sizeof_icmp_hdr_t
  let p5 := memcpy p4 data (mem_read recv_buf.payload recv_buf.data sizeof_ip_hdr_t)
  let avail := (recv_buf.len + 2 ^ 64 - recv_buf.data) % 2 ^ 64
  let data_to_copy := if avail > 8 then 8 else avail
  let p6 := memcpy p5 (data + sizeof_ip_hdr_t)
    (mem_read recv_buf.payload recv_buf.data data_to_copy)
  let p7 := memcpy p6 (tx0.data + 2) (u16_bytes 0)
  let p8 := memcpy p7 (tx0.data + 2) (u16_bytes (checksum16 (mem_read p7 tx0.data tx0.len)))
  let tx : buf_t := { tx0 with payload := p8 }
  (tx, [⟨tx, src_ip, NET_PROTOCOL_ICMP⟩])

/-- A checksum function for the sample runs: the sum of the bytes, modulo 2^16. -/
def sampleChecksum (bytes : List Nat) : Nat := bytes.sum % 65536

/-- A received datagram at offset 40 of its backing array: a 20-byte IP header
from 10.0.0.2 to 10.0.0.1 and 8 bytes of data, 0xD1 to 0xD8. -/
def dgram : buf_t :=
  ⟨28, 40,
   List.replicate 40 0 ++
   [0x45, 0, 0, 28, 0, 0, 0, 0, 64, 17, 0, 0, 10, 0, 0, 2, 10, 0, 0, 1] ++
   [0xD1, 0xD2, 0xD3, 0xD4, 0xD5, 0xD6, 0xD7, 0xD8] ++ List.replicate 92 0⟩

/-- An echo request at offset 40 of its backing array: code 0, checksum 0x1234,
identifier 0x0102, sequence number 0x0304 and three bytes of data. -/
def echoRequest : buf_t :=
  ⟨11, 40, List.replicate 40 0 ++ [8, 0, 0x12, 0x34, 1, 2, 3, 4, 0xE1, 0xE2, 0xE3] ++
    List.replicate 109 0⟩

/-- An echo reply of the same content, which `icmp_in` is not to answer. -/
def echoReply : buf_t :=
  ⟨11, 40, List.replicate 40 0 ++ [0, 0, 0x12, 0x34, 1, 2, 3, 4, 0xE1, 0xE2, 0xE3] ++
    List.replicate 109 0⟩

/-! ## Lemmas on the map and on memory -/

theorem map_get_map_set_same {V : Type} (m : map_t V) (now : Nat) (key : ip_addr) (v : V) :
    map_get (map_set m now key v) now key = some v := by
  simp [map_get, map_set]

theorem find_filter_ne {V : Type} (l : List (map_entry V)) (key : ip_addr) :
    (l.filter (fun e => decide (e.key ≠ key))).find? (fun e => decide (e.key = key)) = none := by
  induction l with
  | nil => rfl
  | cons e l ih =>
    by_cases h : e.key = key
    · simp [List.filter, h]
    · simp [List.filter, h]

theorem map_get_map_delete_same {V : Type} (m : map_t V) (t : Nat) (key : ip_addr) :
    map_get (map_delete m key) t key = none := by
  simp only [map_get, map_delete, find_filter_ne]

theorem mem_byte_memcpy (mem : List Nat) (off : Nat) (src : List Nat) (k : Nat)
    (h1 : off ≤ mem.length) (h2 : k < src.length) :
    mem_byte (memcpy mem off src) (off + k) = src.getD k 0 := by
  unfold mem_byte memcpy
  have hl : (mem.take off).length = off := by simp [h1]
  rw [List.append_assoc, List.getD_eq_getElem?_getD, List.getD_eq_getElem?_getD]
  rw [List.getElem?_append_right (by omega)]
  rw [hl, Nat.add_sub_cancel_left, List.getElem?_append_left h2]

/-- Reading the struct back through the pointer it was copied to. -/
theorem arp_pkt_at_memcpy (mem : List Nat) (off : Nat) (p : arp_pkt_t)
    (h : off ≤ mem.length)
    (h1 : p.hw_type16 < 65536) (h2 : p.pro_type16 < 65536) (h3 : p.opcode16 < 65536) :
    arp_pkt_at (memcpy mem off (arp_pkt_bytes p)) off = p := by
  have hb : ∀ k, k < 28 → mem_byte (memcpy mem off (arp_pkt_bytes p)) (off + k)
      = (arp_pkt_bytes p).getD k 0 := by
    intro k hk
    exact mem_byte_memcpy mem off _ k h
      (by simpa [arp_pkt_bytes, u16_bytes, mac_bytes, ip_bytes] using hk)
  have hb0 := hb 0 (by omega)
  rw [Nat.add_zero] at hb0
  cases p
  simp only [arp_pkt_at, u16_at, mac_at, ip_at, Nat.add_assoc, hb0, hb, Nat.reduceAdd,
    Nat.reduceLT]
  simp [arp_pkt_bytes, u16_bytes, mac_bytes, ip_bytes] at *
  omega

theorem memcmp_ip_eq_zero_iff (a b : ip_addr) :
    memcmp (ip_bytes a) (ip_bytes b) NET_IP_LEN = 0 ↔ a = b := by
  obtain ⟨a0, a1, a2, a3⟩ := a
  obtain ⟨b0, b1, b2, b3⟩ := b
  simp only [ip_bytes, NET_IP_LEN, memcmp, ip_addr.mk.injEq]
  constructor
  · intro h
    split_ifs at h <;> omega
  · rintro ⟨rfl, rfl, rfl, rfl⟩
    simp

/-- The one call `arp_resp` makes: a 28-byte buffer that holds the reply struct,
sent to `target_mac` with the ARP protocol identifier. -/
theorem arp_resp_call (cfg : Config) (s : State) (target_ip : ip_addr) (target_mac : mac_addr)
    (hmax : sizeof_arp_pkt_t < cfg.BUF_MAX_LEN / 2)
    (hlen : s.txbuf.payload.length = cfg.BUF_MAX_LEN) :
    ∃ tx : buf_t,
      (arp_resp cfg s target_ip target_mac).2 = [⟨tx, target_mac, NET_PROTOCOL_ARP⟩] ∧
      tx.len = sizeof_arp_pkt_t ∧
      arp_pkt_at tx.payload tx.data = arp_resp_pkt cfg target_ip target_mac := by
  have hinit : buf_init cfg.BUF_MAX_LEN s.txbuf sizeof_arp_pkt_t =
      ({ s.txbuf with len := sizeof_arp_pkt_t,
                      data := cfg.BUF_MAX_LEN / 2 - sizeof_arp_pkt_t }, 0) := by
    unfold buf_init
    rw [if_neg (by omega)]
  refine ⟨_, rfl, ?_, ?_⟩
  · simp only [hinit]
  · simp only [hinit]
    apply arp_pkt_at_memcpy
    · rw [hlen]; omega
    · simp [arp_resp_pkt, arp_init_pkt, swap16, ARP_HW_ETHER]
    · simp [arp_resp_pkt, arp_init_pkt, swap16, NET_PROTOCOL_IP]
    · simp [arp_resp_pkt, arp_init_pkt, swap16, ARP_REPLY]

/-- On a cache miss `arp_req` makes one call of `ethernet_out`, with the transmit
buffer exactly as `buf_init` leaves it, whatever the target IP is. -/
theorem arp_req_call (cfg : Config) (s : State) (now : Nat) (target_ip : ip_addr)
    (h : map_get s.arp_table now target_ip = none) :
    (arp_req cfg s now target_ip).2 =
        [⟨(buf_init cfg.BUF_MAX_LEN s.txbuf sizeof_arp_pkt_t).1, ether_broadcast_mac,
          NET_PROTOCOL_ARP⟩] ∧
    (arp_req cfg s now target_ip).1.arp_table = s.arp_table ∧
    (arp_req cfg s now target_ip).1.arp_buf = s.arp_buf := by
  unfold arp_req
  rw [h]
  exact ⟨rfl, rfl, rfl⟩

/-- After validation `arp_in` updates the cache and then flushes, replies or does
nothing. -/
theorem arp_in_of_valid (cfg : Config) (s : State) (now : Nat) (buf : buf_t)
    (src_mac : mac_addr) (h : arp_valid buf) :
    arp_in cfg s now buf src_mac =
      (match map_get s.arp_buf now (arp_pkt_at buf.payload buf.data).sender_ip with
       | some cached_buf =>
           ({ s with
                arp_table := map_set s.arp_table now (arp_pkt_at buf.payload buf.data).sender_ip src_mac
                arp_buf := map_delete s.arp_buf (arp_pkt_at buf.payload buf.data).sender_ip },
            [⟨cached_buf, (arp_pkt_at buf.payload buf.data).sender_mac, NET_PROTOCOL_IP⟩])
       | none =>
           if swap16 (arp_pkt_at buf.payload buf.data).opcode16 = ARP_REQUEST ∧
               memcmp (ip_bytes (arp_pkt_at buf.payload buf.data).target_ip)
                 (ip_bytes cfg.net_if_ip) NET_IP_LEN = 0 then
             arp_resp cfg
               { s with arp_table := map_set s.arp_table now (arp_pkt_at buf.payload buf.data).sender_ip src_mac }
               (arp_pkt_at buf.payload buf.data).sender_ip (arp_pkt_at buf.payload buf.data).sender_mac
           else
             ({ s with arp_table := map_set s.arp_table now (arp_pkt_at buf.payload buf.data).sender_ip src_mac }, [])) := by
  obtain ⟨h1, h2, h3, h4, h5, h6⟩ := h
  have h6' : ¬ (swap16 (arp_pkt_at buf.payload buf.data).opcode16 ≠ ARP_REQUEST ∧
      swap16 (arp_pkt_at buf.payload buf.data).opcode16 ≠ ARP_REPLY) := by
    rcases h6 with h6 | h6 <;> simp [h6]
  unfold arp_in
  rw [if_neg (Nat.not_lt.mpr h1)]
  simp only [h2, h3, h4, h5, ne_eq, not_true_eq_false, if_false]
  rw [if_neg h6']

/-- A validated packet leaves the cache as `map_set` of the sender IP and the
`src_mac` argument makes it, in each of the three branches. -/
theorem arp_in_table_of_valid (cfg : Config) (s : State) (now : Nat) (buf : buf_t)
    (src_mac : mac_addr) (h : arp_valid buf) :
    (arp_in cfg s now buf src_mac).1.arp_table =
      map_set s.arp_table now (arp_pkt_at buf.payload buf.data).sender_ip src_mac := by
  rw [arp_in_of_valid cfg s now buf src_mac h]
  split
  · rfl
  · split
    · rfl
    · rfl

/-! ## Inbound path: malformed packets -/

/-- C1: for every state and every inbound payload that fails at least one of the
validation checks of `arp_in` (too short, hardware type not Ethernet, protocol
type not IPv4, hardware address length not 6, protocol address length not 4,
opcode neither request nor reply), `arp_in` returns the state as it was (cache,
pending store and transmit buffer) and makes no call of `ethernet_out`. -/
theorem arp_in_drop_malformed (cfg : Config) (s : State) (now : Nat) (buf : buf_t)
    (src_mac : mac_addr) (h : ¬ arp_valid buf) :
    arp_in cfg s now buf src_mac = (s, []) := by
  unfold arp_in
  by_cases h1 : buf.len < sizeof_arp_pkt_t
  · simp [h1]
  · by_cases h2 : swap16 (arp_pkt_at buf.payload buf.data).hw_type16 = ARP_HW_ETHER
    · by_cases h3 : swap16 (arp_pkt_at buf.payload buf.data).pro_type16 = NET_PROTOCOL_IP
      · by_cases h4 : (arp_pkt_at buf.payload buf.data).hw_len = NET_MAC_LEN
        · by_cases h5 : (arp_pkt_at buf.payload buf.data).pro_len = NET_IP_LEN
          · have h6 : swap16 (arp_pkt_at buf.payload buf.data).opcode16 ≠ ARP_REQUEST ∧
                swap16 (arp_pkt_at buf.payload buf.data).opcode16 ≠ ARP_REPLY := by
              constructor
              · intro h6
                exact h ⟨Nat.not_lt.mp h1, h2, h3, h4, h5, Or.inl h6⟩
              · intro h6
                exact h ⟨Nat.not_lt.mp h1, h2, h3, h4, h5, Or.inr h6⟩
            simp [h1, h2, h3, h4, h5, h6]
          · simp [h1, h2, h3, h4, h5]
        · simp [h1, h2, h3, h4]
      · simp [h1, h2, h3]
    · simp [h1, h2]

/-- Witness of C1: a packet whose only fault is the opcode 3 is dropped from a
state with a pending packet. -/
theorem arp_in_drop_malformed_witness :
    ¬ arp_valid badOpcodeB ∧ arp_in cfgA sPending 6 badOpcodeB macB = (sPending, []) :=
  ⟨by decide, arp_in_drop_malformed cfgA sPending 6 badOpcodeB macB (by decide)⟩

/-! ## Inbound path: learning -/

/-- C2, refuted as stated: the valid reply `replyB` carries sender 10.0.0.2 / BB and
arrives with `src_mac` CC; afterwards the cache lookup of 10.0.0.2 is not the
sender link address BB of the packet. -/
theorem arp_in_learns_sender_mac_fails :
    arp_valid replyB ∧
    map_get (arp_in cfgA sEmpty 6 replyB macC).1.arp_table 6
        (arp_pkt_at replyB.payload replyB.data).sender_ip ≠
      some (arp_pkt_at replyB.payload replyB.data).sender_mac := by
  decide

/-- C2, amended: for every inbound payload that passes all validation checks of
`arp_in` and every `src_mac` argument, after `arp_in` returns a cache lookup of the
sender IP of the packet yields the `src_mac` argument (the link address the frame
arrived from), whatever the cache held for that IP before. -/
theorem arp_in_learns_src_mac (cfg : Config) (s : State) (now : Nat) (buf : buf_t)
    (src_mac : mac_addr) (h : arp_valid buf) :
    map_get (arp_in cfg s now buf src_mac).1.arp_table now
        (arp_pkt_at buf.payload buf.data).sender_ip = some src_mac := by
  rw [arp_in_table_of_valid cfg s now buf src_mac h]
  exact map_get_map_set_same _ _ _ _

/-- Witness of the amended C2: the cache held BB for 10.0.0.2 and holds CC after a
valid reply from 10.0.0.2 that arrived from CC. -/
theorem arp_in_learns_src_mac_witness :
    arp_valid replyB ∧
    map_get sCached.arp_table 6 ipB = some macB ∧
    map_get (arp_in cfgA sCached 6 replyB macC).1.arp_table 6
        (arp_pkt_at replyB.payload replyB.data).sender_ip = some macC :=
  ⟨by decide, by decide, arp_in_learns_src_mac cfgA sCached 6 replyB macC (by decide)⟩

/-! ## Inbound path: flush -/

/-- C3: for every state in which the pending store holds a packet `P` under IP `X`,
and every validated inbound packet (request or reply) whose sender IP is `X`,
`arp_in` makes exactly one call of `ethernet_out`, with `P`, the sender link
address of the packet and the IPv4 protocol identifier, and afterwards the pending
store has no entry for `X` at any time. -/
theorem arp_in_flush (cfg : Config) (s : State) (now : Nat) (buf : buf_t)
    (src_mac : mac_addr) (X : ip_addr) (P : buf_t)
    (hvalid : arp_valid buf)
    (hX : (arp_pkt_at buf.payload buf.data).sender_ip = X)
    (hpending : map_get s.arp_buf now X = some P) :
    (arp_in cfg s now buf src_mac).2 =
        [⟨P, (arp_pkt_at buf.payload buf.data).sender_mac, NET_PROTOCOL_IP⟩] ∧
    ∀ t, map_get (arp_in cfg s now buf src_mac).1.arp_buf t X = none := by
  rw [arp_in_of_valid cfg s now buf src_mac hvalid, hX, hpending]
  refine ⟨rfl, ?_⟩
  intro t
  exact map_get_map_delete_same _ _ _

/-- Witness of C3: the pending packet for 10.0.0.2 is flushed by a request from
10.0.0.2. -/
theorem arp_in_flush_witness :
    (arp_in cfgA sPending 6 requestB macB).2 =
        [⟨pktP, (arp_pkt_at requestB.payload requestB.data).sender_mac, NET_PROTOCOL_IP⟩] ∧
    ∀ t, map_get (arp_in cfgA sPending 6 requestB macB).1.arp_buf t ipB = none :=
  arp_in_flush cfgA sPending 6 requestB macB ipB pktP (by decide) (by decide) (by decide)

/-! ## Inbound path: reply -/

/-- C4: for every validated inbound request whose target IP equals the local IP,
in a state with no pending entry for the sender IP of the request (the transmit
buffer having its `BUF_MAX_LEN` bytes, enough for `buf_init` to place 28),
`arp_in` makes exactly one call of `ethernet_out`; it is addressed to the sender
link address of the request with the ARP protocol identifier, and its buffer is
28 bytes long and holds an ARP packet with hardware type Ethernet, protocol type
IPv4, address lengths 6 and 4, opcode reply, sender pair (local IP, local MAC)
and target pair (sender IP, sender MAC of the request). -/
theorem arp_in_reply (cfg : Config) (s : State) (now : Nat) (buf : buf_t)
    (src_mac : mac_addr)
    (hmax : sizeof_arp_pkt_t < cfg.BUF_MAX_LEN / 2)
    (hlen : s.txbuf.payload.length = cfg.BUF_MAX_LEN)
    (hvalid : arp_valid buf)
    (hreq : swap16 (arp_pkt_at buf.payload buf.data).opcode16 = ARP_REQUEST)
    (htarget : (arp_pkt_at buf.payload buf.data).target_ip = cfg.net_if_ip)
    (hnone : map_get s.arp_buf now (arp_pkt_at buf.payload buf.data).sender_ip = none) :
    ∃ tx : buf_t,
      (arp_in cfg s now buf src_mac).2 =
        [⟨tx, (arp_pkt_at buf.payload buf.data).sender_mac, NET_PROTOCOL_ARP⟩] ∧
      tx.len = sizeof_arp_pkt_t ∧
      swap16 (arp_pkt_at tx.payload tx.data).hw_type16 = ARP_HW_ETHER ∧
      swap16 (arp_pkt_at tx.payload tx.data).pro_type16 = NET_PROTOCOL_IP ∧
      (arp_pkt_at tx.payload tx.data).hw_len = 6 ∧
      (arp_pkt_at tx.payload tx.data).pro_len = 4 ∧
      swap16 (arp_pkt_at tx.payload tx.data).opcode16 = ARP_REPLY ∧
      (arp_pkt_at tx.payload tx.data).sender_ip = cfg.net_if_ip ∧
      (arp_pkt_at tx.payload tx.data).sender_mac = cfg.net_if_mac ∧
      (arp_pkt_at tx.payload tx.data).target_ip = (arp_pkt_at buf.payload buf.data).sender_ip ∧
      (arp_pkt_at tx.payload tx.data).target_mac = (arp_pkt_at buf.payload buf.data).sender_mac := by
  rw [arp_in_of_valid cfg s now buf src_mac hvalid, hnone]
  have hcmp : memcmp (ip_bytes (arp_pkt_at buf.payload buf.data).target_ip)
      (ip_bytes cfg.net_if_ip) NET_IP_LEN = 0 := (memcmp_ip_eq_zero_iff _ _).mpr htarget
  simp only [hreq, hcmp, and_self, if_true]
  obtain ⟨tx, hcall, hl, hpkt⟩ :=
    arp_resp_call cfg
      { s with arp_table :=
          map_set s.arp_table now (arp_pkt_at buf.payload buf.data).sender_ip src_mac }
      (arp_pkt_at buf.payload buf.data).sender_ip (arp_pkt_at buf.payload buf.data).sender_mac
      hmax hlen
  refine ⟨tx, hcall, hl, ?_⟩
  rw [hpkt]
  simp [arp_resp_pkt, swap16, ARP_HW_ETHER, NET_PROTOCOL_IP, ARP_REPLY, NET_MAC_LEN, NET_IP_LEN]

/-- Witness of C4: the request `requestB` for the local address, received in the
empty state, is answered by one reply to BB. -/
theorem arp_in_reply_witness :
    ∃ tx : buf_t,
      (arp_in cfgA sEmpty 6 requestB macB).2 =
        [⟨tx, (arp_pkt_at requestB.payload requestB.data).sender_mac, NET_PROTOCOL_ARP⟩] ∧
      tx.len = sizeof_arp_pkt_t ∧
      swap16 (arp_pkt_at tx.payload tx.data).hw_type16 = ARP_HW_ETHER ∧
      swap16 (arp_pkt_at tx.payload tx.data).pro_type16 = NET_PROTOCOL_IP ∧
      (arp_pkt_at tx.payload tx.data).hw_len = 6 ∧
      (arp_pkt_at tx.payload tx.data).pro_len = 4 ∧
      swap16 (arp_pkt_at tx.payload tx.data).opcode16 = ARP_REPLY ∧
      (arp_pkt_at tx.payload tx.data).sender_ip = cfgA.net_if_ip ∧
      (arp_pkt_at tx.payload tx.data).sender_mac = cfgA.net_if_mac ∧
      (arp_pkt_at tx.payload tx.data).target_ip =
        (arp_pkt_at requestB.payload requestB.data).sender_ip ∧
      (arp_pkt_at tx.payload tx.data).target_mac =
        (arp_pkt_at requestB.payload requestB.data).sender_mac :=
  arp_in_reply cfgA sEmpty 6 requestB macB (by decide) (by rfl) (by decide) (by decide)
    (by decide) (by decide)

/-- C10: for every validated inbound packet whose sender IP has no pending entry
and which is either a reply or a request whose target IP differs from the local
IP, `arp_in` makes no call of `ethernet_out` and its only effect on the state is
the cache update for the sender IP: the pending store and the transmit buffer are
as before. -/
theorem arp_in_no_action (cfg : Config) (s : State) (now : Nat) (buf : buf_t)
    (src_mac : mac_addr)
    (hvalid : arp_valid buf)
    (hnone : map_get s.arp_buf now (arp_pkt_at buf.payload buf.data).sender_ip = none)
    (hkind : swap16 (arp_pkt_at buf.payload buf.data).opcode16 = ARP_REPLY ∨
      (swap16 (arp_pkt_at buf.payload buf.data).opcode16 = ARP_REQUEST ∧
       (arp_pkt_at buf.payload buf.data).target_ip ≠ cfg.net_if_ip)) :
    (arp_in cfg s now buf src_mac).2 = [] ∧
    (arp_in cfg s now buf src_mac).1.arp_buf = s.arp_buf ∧
    (arp_in cfg s now buf src_mac).1 =
      { s with arp_table :=
          map_set s.arp_table now (arp_pkt_at buf.payload buf.data).sender_ip src_mac } := by
  rw [arp_in_of_valid cfg s now buf src_mac hvalid, hnone]
  have hcond : ¬ (swap16 (arp_pkt_at buf.payload buf.data).opcode16 = ARP_REQUEST ∧
      memcmp (ip_bytes (arp_pkt_at buf.payload buf.data).target_ip)
        (ip_bytes cfg.net_if_ip) NET_IP_LEN = 0) := by
    rintro ⟨h1, h2⟩
    rcases hkind with h | ⟨_, h⟩
    · rw [h1] at h
      exact absurd h (by decide)
    · exact h ((memcmp_ip_eq_zero_iff _ _).mp h2)
  simp only [hcond, if_false, and_self]

/-- Witness of C10: a reply from 10.0.0.2 in the empty state only updates the
cache. -/
theorem arp_in_no_action_witness :
    (arp_in cfgA sEmpty 6 replyB macB).2 = [] ∧
    (arp_in cfgA sEmpty 6 replyB macB).1.arp_buf = sEmpty.arp_buf ∧
    (arp_in cfgA sEmpty 6 replyB macB).1 =
      { sEmpty with
        arp_table :=
          map_set sEmpty.arp_table 6 (arp_pkt_at replyB.payload replyB.data).sender_ip macB } :=
  arp_in_no_action cfgA sEmpty 6 replyB macB (by decide) (by decide) (Or.inl (by decide))

/-! ## Outbound path -/

/-- C5: for every packet `P`, handed over in the transmit buffer or in a buffer of
the caller's own, and destination IP `D` such that neither the cache nor the
pending store has an entry for `D`, `arp_out` stores `P` in the pending store
under `D` and makes exactly one call of `ethernet_out`, addressed to the
link-layer broadcast address with the ARP protocol identifier; the cache is
unchanged. -/
theorem arp_out_miss (cfg : Config) (s : State) (now : Nat) (pkt : pkt_ref) (D : ip_addr)
    (hcache : map_get s.arp_table now D = none)
    (hpending : map_get s.arp_buf now D = none) :
    map_get (arp_out cfg s now pkt D).1.arp_buf now D = some (pkt_buf s pkt) ∧
    (∃ tx : buf_t, (arp_out cfg s now pkt D).2 = [⟨tx, ether_broadcast_mac, NET_PROTOCOL_ARP⟩]) ∧
    (arp_out cfg s now pkt D).1.arp_table = s.arp_table := by
  have hreq := arp_req_call cfg
    { s with arp_buf := map_set s.arp_buf now D (pkt_buf s pkt) } now D hcache
  unfold arp_out
  simp only [hcache, hpending]
  obtain ⟨h1, h2, h3⟩ := hreq
  refine ⟨?_, ⟨_, h1⟩, h2⟩
  rw [h3]
  exact map_get_map_set_same _ _ _ _

/-- Witness of C5: the first send to 10.0.0.2 from the empty state. -/
theorem arp_out_miss_witness :
    map_get (arp_out cfgA sEmpty 5 (.own pktP) ipB).1.arp_buf 5 ipB = some pktP ∧
    (∃ tx : buf_t,
      (arp_out cfgA sEmpty 5 (.own pktP) ipB).2 =
        [⟨tx, ether_broadcast_mac, NET_PROTOCOL_ARP⟩]) ∧
    (arp_out cfgA sEmpty 5 (.own pktP) ipB).1.arp_table = sEmpty.arp_table :=
  arp_out_miss cfgA sEmpty 5 (.own pktP) ipB (by decide) (by decide)

/-- C7: for every destination IP `D` that is absent from the cache and has a
pending entry holding `P1`, and every packet `P2`, handed over in the transmit
buffer or in a buffer of the caller's own, `arp_out` makes no call of
`ethernet_out` and returns the state as it was (cache, pending store and transmit
buffer), so the entry for `D` still holds `P1` and `P2` is dropped. -/
theorem arp_out_duplicate_suppressed (cfg : Config) (s : State) (now : Nat)
    (P1 : buf_t) (P2 : pkt_ref) (D : ip_addr)
    (hcache : map_get s.arp_table now D = none)
    (hpending : map_get s.arp_buf now D = some P1) :
    arp_out cfg s now P2 D = (s, []) ∧
    map_get (arp_out cfg s now P2 D).1.arp_buf now D = some P1 := by
  have h : arp_out cfg s now P2 D = (s, []) := by
    unfold arp_out
    simp only [hcache, hpending]
  rw [h]
  exact ⟨rfl, hpending⟩

/-- Witness of C7: a second send to 10.0.0.2 while `pktP` is pending. -/
theorem arp_out_duplicate_suppressed_witness :
    arp_out cfgA sPending 5 (.own pktQ) ipB = (sPending, []) ∧
    map_get (arp_out cfgA sPending 5 (.own pktQ) ipB).1.arp_buf 5 ipB = some pktP :=
  arp_out_duplicate_suppressed cfgA sPending 5 pktP (.own pktQ) ipB (by decide) (by decide)

/-- C8: for every packet `P`, handed over in the transmit buffer or in a buffer of
the caller's own, and destination IP `D` for which the cache holds the link
address `M`, `arp_out` makes exactly one call of `ethernet_out`, with `P`, `M` and
the IPv4 protocol identifier: no request, and neither the cache nor the pending
store is modified.  The transmit buffer is as before when the packet is a buffer
of the caller's own, and is left as `ethernet_out` leaves it when the packet is
the transmit buffer itself. -/
theorem arp_out_hit (cfg : Config) (s : State) (now : Nat) (pkt : pkt_ref) (D : ip_addr)
    (M : mac_addr) (hcache : map_get s.arp_table now D = some M) :
    (arp_out cfg s now pkt D).2 = [⟨pkt_buf s pkt, M, NET_PROTOCOL_IP⟩] ∧
    (arp_out cfg s now pkt D).1.arp_table = s.arp_table ∧
    (arp_out cfg s now pkt D).1.arp_buf = s.arp_buf ∧
    (arp_out cfg s now pkt D).1 =
      pkt_write s pkt (ethernet_out cfg (pkt_buf s pkt) M NET_PROTOCOL_IP).1 := by
  have h : arp_out cfg s now pkt D =
      (pkt_write s pkt (ethernet_out cfg (pkt_buf s pkt) M NET_PROTOCOL_IP).1,
       [⟨pkt_buf s pkt, M, NET_PROTOCOL_IP⟩]) := by
    unfold arp_out
    simp only [hcache]
  rw [h]
  cases pkt with
  | txbuf => exact ⟨rfl, rfl, rfl, rfl⟩
  | own buf => exact ⟨rfl, rfl, rfl, rfl⟩

set_option maxRecDepth 8000 in
/-- Witness of C8: a send to 10.0.0.2 while the cache maps it to BB, of a buffer of
the caller's own and of the transmit buffer itself; in the second the transmit
buffer is changed by the padding and the header. -/
theorem arp_out_hit_witness :
    ((arp_out cfgA sCached 6 (.own pktP) ipB).2 = [⟨pktP, macB, NET_PROTOCOL_IP⟩] ∧
     (arp_out cfgA sCached 6 (.own pktP) ipB).1.arp_table = sCached.arp_table ∧
     (arp_out cfgA sCached 6 (.own pktP) ipB).1.arp_buf = sCached.arp_buf ∧
     (arp_out cfgA sCached 6 (.own pktP) ipB).1 =
       pkt_write sCached (.own pktP) (ethernet_out cfgA pktP macB NET_PROTOCOL_IP).1) ∧
    ((arp_out cfgA sCachedTx 6 .txbuf ipB).2 = [⟨sCachedTx.txbuf, macB, NET_PROTOCOL_IP⟩] ∧
     (arp_out cfgA sCachedTx 6 .txbuf ipB).1.arp_table = sCachedTx.arp_table ∧
     (arp_out cfgA sCachedTx 6 .txbuf ipB).1.arp_buf = sCachedTx.arp_buf ∧
     (arp_out cfgA sCachedTx 6 .txbuf ipB).1 =
       pkt_write sCachedTx .txbuf
         (ethernet_out cfgA sCachedTx.txbuf macB NET_PROTOCOL_IP).1) ∧
    (arp_out cfgA sCachedTx 6 .txbuf ipB).1.txbuf ≠ sCachedTx.txbuf ∧
    (arp_out cfgA sCachedTx 6 .txbuf ipB).1.txbuf.len = 60 :=
  ⟨arp_out_hit cfgA sCached 6 (.own pktP) ipB macB (by decide),
   arp_out_hit cfgA sCachedTx 6 .txbuf ipB macB (by decide),
   by decide, by decide⟩

/-! ## The request packet -/

set_option maxRecDepth 8000 in
/-- C6, evaluated: with nothing cached and a zero-filled transmit buffer,
`arp_req` for 10.0.0.2 hands `ethernet_out` a buffer of 28 zero bytes: hardware
type, opcode, sender IP and target IP are not those of a request for 10.0.0.2.
With another content of the transmit buffer the bytes handed over are different.
The packet `arp_req` fills but does not copy out has the broadcast address, not
the all-zero address, as target link address. -/
theorem arp_req_sends_stale_txbuf :
    map_get sEmpty.arp_table 6 ipB = none ∧
    (arp_req cfgA sEmpty 6 ipB).2 = [⟨txZeroInit, ether_broadcast_mac, NET_PROTOCOL_ARP⟩] ∧
    buf_bytes txZeroInit = List.replicate 28 0 ∧
    swap16 (arp_pkt_at txZeroInit.payload txZeroInit.data).hw_type16 ≠ ARP_HW_ETHER ∧
    swap16 (arp_pkt_at txZeroInit.payload txZeroInit.data).opcode16 ≠ ARP_REQUEST ∧
    (arp_pkt_at txZeroInit.payload txZeroInit.data).sender_ip ≠ cfgA.net_if_ip ∧
    (arp_pkt_at txZeroInit.payload txZeroInit.data).target_ip ≠ ipB ∧
    (arp_req cfgA { sEmpty with txbuf := txSevens } 6 ipB).2.map (fun c => buf_bytes c.buf) =
      [List.replicate 28 7] ∧
    (arp_req_pkt cfgA ipB).target_mac = ether_broadcast_mac ∧
    ether_broadcast_mac ≠ zero_mac := by
  decide

/-! ## The scenario -/

/-- C9, evaluated from the empty state with a zero-filled transmit buffer, local
address 10.0.0.1 / AA.  Step 1 makes one call of `ethernet_out`, to the broadcast
address with the ARP protocol identifier, and leaves one pending entry, for
10.0.0.2, that holds the packet; but the buffer of that call is 28 zero bytes,
whose opcode is not request and whose target IP is not 10.0.0.2.  Step 2 makes
the cache map 10.0.0.2 to BB, empties the pending store and hands the packet to
`ethernet_out` for BB with the IPv4 protocol identifier.  Step 3 hands the next
packet to `ethernet_out` for BB and nothing else. -/
theorem scenario_evaluated :
    scenario1.2 = [⟨txZeroInit, ether_broadcast_mac, NET_PROTOCOL_ARP⟩] ∧
    swap16 (arp_pkt_at txZeroInit.payload txZeroInit.data).opcode16 ≠ ARP_REQUEST ∧
    (arp_pkt_at txZeroInit.payload txZeroInit.data).target_ip ≠ ipB ∧
    scenario1.1.arp_buf.entries = [⟨ipB, pktP, 5⟩] ∧
    scenario1.1.arp_table.entries = [] ∧
    map_get scenario2.1.arp_table 5 ipB = some macB ∧
    scenario2.1.arp_buf.entries = [] ∧
    scenario2.2 = [⟨pktP, macB, NET_PROTOCOL_IP⟩] ∧
    scenario3.2 = [⟨pktQ, macB, NET_PROTOCOL_IP⟩] ∧
    scenario3.1 = scenario2.1 := by
  decide

/-! ## Lemmas on keys other than the one written -/

theorem find_filter_other {V : Type} (l : List (map_entry V)) (key k : ip_addr) (h : k ≠ key) :
    (l.filter (fun e => decide (e.key ≠ key))).find? (fun e => decide (e.key = k)) =
      l.find? (fun e => decide (e.key = k)) := by
  induction l with
  | nil => rfl
  | cons e l ih =>
    by_cases h1 : e.key = key
    · have h2 : ¬ e.key = k := fun h2 => h (h2.symm.trans h1)
      have hf : decide (e.key ≠ key) = false := by simp [h1]
      rw [List.filter_cons_of_neg (by simp [h1]), List.find?_cons_of_neg _ (by simp [h2]), ih]
    · rw [List.filter_cons_of_pos (by simp [h1])]
      by_cases h2 : e.key = k
      · rw [List.find?_cons_of_pos _ (by simp [h2]), List.find?_cons_of_pos _ (by simp [h2])]
      · rw [List.find?_cons_of_neg _ (by simp [h2]), List.find?_cons_of_neg _ (by simp [h2]), ih]

/-- With room for the key, an insert leaves the lookup of every other key as it
was. -/
theorem map_get_map_set_other_of_room {V : Type} (m : map_t V) (now t : Nat)
    (key k : ip_addr) (v : V) (hroom : map_has_room m key = true) (h : k ≠ key) :
    map_get (map_set m now key v) t k = map_get m t k := by
  have h2 : ¬ key = k := fun h2 => h h2.symm
  simp only [map_get, map_set, hroom, if_true, List.find?, h2, decide_False,
    find_filter_other _ _ _ h]

/-- An insert leaves the lookup of every other key as it was, or absent when the
key was evicted. -/
theorem map_get_map_set_other {V : Type} (m : map_t V) (now t : Nat) (key k : ip_addr) (v : V)
    (h : k ≠ key) :
    map_get (map_set m now key v) t k = map_get m t k ∨
    map_get (map_set m now key v) t k = none := by
  have h2 : ¬ key = k := fun h2 => h h2.symm
  by_cases hroom : map_has_room m key = true
  · exact Or.inl (map_get_map_set_other_of_room m now t key k v hroom h)
  · simp only [map_get, map_set, hroom, if_false, List.find?, h2, decide_False,
      find_filter_other _ _ _ h, map_evict, Bool.false_eq_true]
    cases ho : map_oldest m.entries with
    | none => exact Or.inl rfl
    | some o =>
      simp only
      by_cases hk : k = o.key
      · right
        rw [hk, find_filter_ne]
      · left
        rw [find_filter_other _ _ _ hk]

theorem map_get_map_delete_other {V : Type} (m : map_t V) (t : Nat) (key k : ip_addr)
    (h : k ≠ key) : map_get (map_delete m key) t k = map_get m t k := by
  simp only [map_get, map_delete, find_filter_other _ _ _ h]

/-- An entry that reads as absent stays absent when the clock advances. -/
theorem map_get_none_mono {V : Type} (m : map_t V) (t t2 : Nat) (k : ip_addr)
    (h : map_get m t k = none) (ht : t ≤ t2) : map_get m t2 k = none := by
  unfold map_get at *
  cases hf : m.entries.find? (fun e => decide (e.key = k)) with
  | none => rfl
  | some e =>
    rw [hf] at h
    simp only at h ⊢
    by_cases hl : t ≤ e.stamp + m.timeout
    · simp [hl] at h
    · rw [if_neg (by omega)]

/-- The function `arp_req` writes neither map. -/
theorem arp_req_maps (cfg : Config) (s : State) (now : Nat) (target_ip : ip_addr) :
    (arp_req cfg s now target_ip).1.arp_table = s.arp_table ∧
    (arp_req cfg s now target_ip).1.arp_buf = s.arp_buf := by
  unfold arp_req
  split <;> exact ⟨rfl, rfl⟩

/-- The map operations of `arp_out`: none on the cache, at most one `map_set` of the
destination IP on the pending store, made only when both lookups miss. -/
theorem arp_out_maps (cfg : Config) (s : State) (now : Nat) (pkt : pkt_ref) (ip : ip_addr) :
    (arp_out cfg s now pkt ip).1.arp_table = s.arp_table ∧
    ((arp_out cfg s now pkt ip).1.arp_buf = s.arp_buf ∨
     (map_get s.arp_table now ip = none ∧
      (arp_out cfg s now pkt ip).1.arp_buf = map_set s.arp_buf now ip (pkt_buf s pkt))) := by
  unfold arp_out
  cases hc : map_get s.arp_table now ip with
  | some mac =>
    cases pkt with
    | txbuf => exact ⟨rfl, Or.inl rfl⟩
    | own buf => exact ⟨rfl, Or.inl rfl⟩
  | none =>
    cases hp : map_get s.arp_buf now ip with
    | some b => exact ⟨rfl, Or.inl rfl⟩
    | none =>
      have h := arp_req_maps cfg
        { s with arp_buf := map_set s.arp_buf now ip (pkt_buf s pkt) } now ip
      exact ⟨h.1, Or.inr ⟨rfl, h.2⟩⟩

/-- A payload that fails a validation check leaves `arp_in` without effect. -/
theorem arp_in_of_not_valid (cfg : Config) (s : State) (now : Nat) (buf : buf_t)
    (src_mac : mac_addr) (h : ¬ arp_valid buf) :
    arp_in cfg s now buf src_mac = (s, []) := by
  unfold arp_in
  by_cases h1 : buf.len < sizeof_arp_pkt_t
  · simp [h1]
  by_cases h2 : swap16 (arp_pkt_at buf.payload buf.data).hw_type16 = ARP_HW_ETHER
  swap
  · simp [h1, h2]
  by_cases h3 : swap16 (arp_pkt_at buf.payload buf.data).pro_type16 = NET_PROTOCOL_IP
  swap
  · simp [h1, h2, h3]
  by_cases h4 : (arp_pkt_at buf.payload buf.data).hw_len = NET_MAC_LEN
  swap
  · simp [h1, h2, h3, h4]
  by_cases h5 : (arp_pkt_at buf.payload buf.data).pro_len = NET_IP_LEN
  swap
  · simp [h1, h2, h3, h4, h5]
  have h6 : swap16 (arp_pkt_at buf.payload buf.data).opcode16 ≠ ARP_REQUEST ∧
      swap16 (arp_pkt_at buf.payload buf.data).opcode16 ≠ ARP_REPLY :=
    ⟨fun h6 => h ⟨Nat.not_lt.mp h1, h2, h3, h4, h5, Or.inl h6⟩,
     fun h6 => h ⟨Nat.not_lt.mp h1, h2, h3, h4, h5, Or.inr h6⟩⟩
  simp [h1, h2, h3, h4, h5, h6]

/-- The map operations of `arp_in`: either none, or `map_set` of the sender IP on the
cache together with, when the sender IP has a live pending entry, `map_delete` of
the sender IP on the pending store. -/
theorem arp_in_maps (cfg : Config) (s : State) (now : Nat) (buf : buf_t) (src_mac : mac_addr) :
    ((arp_in cfg s now buf src_mac).1.arp_table = s.arp_table ∧
     (arp_in cfg s now buf src_mac).1.arp_buf = s.arp_buf) ∨
    ((arp_in cfg s now buf src_mac).1.arp_table =
        map_set s.arp_table now (arp_pkt_at buf.payload buf.data).sender_ip src_mac ∧
     ((arp_in cfg s now buf src_mac).1.arp_buf =
        map_delete s.arp_buf (arp_pkt_at buf.payload buf.data).sender_ip ∨
      (map_get s.arp_buf now (arp_pkt_at buf.payload buf.data).sender_ip = none ∧
       (arp_in cfg s now buf src_mac).1.arp_buf = s.arp_buf))) := by
  by_cases hv : arp_valid buf
  · right
    refine ⟨arp_in_table_of_valid cfg s now buf src_mac hv, ?_⟩
    have hin := arp_in_of_valid cfg s now buf src_mac hv
    cases hp : map_get s.arp_buf now (arp_pkt_at buf.payload buf.data).sender_ip with
    | some b =>
      left
      rw [hin, hp]
    | none =>
      right
      refine ⟨rfl, ?_⟩
      rw [hin, hp]
      dsimp only
      split <;> rfl
  · left
    rw [arp_in_of_not_valid cfg s now buf src_mac hv]
    exact ⟨rfl, rfl⟩

/-- The disjointness kept by every call: from time `t0` on, no key reads as present in
both maps. -/
theorem arp_step_disjoint (cfg : Config) (s : State) (t0 : Nat) (op : arp_op)
    (hinv : ∀ k t, t0 ≤ t → map_get s.arp_table t k = none ∨ map_get s.arp_buf t k = none)
    (hle : t0 ≤ arp_op_time op) :
    ∀ k t, arp_op_time op ≤ t →
      map_get (arp_step cfg s op).arp_table t k = none ∨
      map_get (arp_step cfg s op).arp_buf t k = none := by
  intro k t ht
  cases op with
  | out now pkt ip =>
    simp only [arp_op_time] at hle ht
    simp only [arp_step]
    obtain ⟨htab, hbuf | ⟨hmiss, hbuf⟩⟩ := arp_out_maps cfg s now pkt ip
    · rw [htab, hbuf]
      exact hinv k t (by omega)
    · rw [htab, hbuf]
      by_cases hk : k = ip
      · left
        rw [hk]
        exact map_get_none_mono _ _ _ _ hmiss ht
      · rcases map_get_map_set_other s.arp_buf now t ip k (pkt_buf s pkt) hk with he | he
        · rw [he]
          exact hinv k t (by omega)
        · exact Or.inr he
  | inp now buf src_mac =>
    simp only [arp_op_time] at hle ht
    simp only [arp_step]
    obtain ⟨htab, hbuf⟩ | ⟨htab, hbuf | ⟨hmiss, hbuf⟩⟩ := arp_in_maps cfg s now buf src_mac
    · rw [htab, hbuf]
      exact hinv k t (by omega)
    · rw [htab, hbuf]
      by_cases hk : k = (arp_pkt_at buf.payload buf.data).sender_ip
      · right
        rw [hk]
        exact map_get_map_delete_same _ _ _
      · rcases map_get_map_set_other s.arp_table now t
          (arp_pkt_at buf.payload buf.data).sender_ip k src_mac hk with he | he
        · rw [he, map_get_map_delete_other _ _ _ _ hk]
          exact hinv k t (by omega)
        · exact Or.inl he
    · rw [htab, hbuf]
      by_cases hk : k = (arp_pkt_at buf.payload buf.data).sender_ip
      · right
        rw [hk]
        exact map_get_none_mono _ _ _ _ hmiss ht
      · rcases map_get_map_set_other s.arp_table now t
          (arp_pkt_at buf.payload buf.data).sender_ip k src_mac hk with he | he
        · rw [he]
          exact hinv k t (by omega)
        · exact Or.inl he

/-- The disjointness kept along a run whose clock never runs backwards. -/
theorem arp_run_disjoint (cfg : Config) (ops : List arp_op) (s : State) (t0 : Nat)
    (hinv : ∀ k t, t0 ≤ t → map_get s.arp_table t k = none ∨ map_get s.arp_buf t k = none)
    (hord : times_ordered t0 ops) :
    ∀ k t, last_time t0 ops ≤ t →
      map_get (arp_run cfg s ops).arp_table t k = none ∨
      map_get (arp_run cfg s ops).arp_buf t k = none := by
  induction ops generalizing s t0 with
  | nil => exact hinv
  | cons op ops ih =>
    obtain ⟨hle, hrest⟩ := hord
    exact ih (arp_step cfg s op) (arp_op_time op) (arp_step_disjoint cfg s t0 op hinv hle) hrest

/-! ## Inbound path: flush before reply -/

/-- C11: for every validated inbound request whose target IP equals the local IP and
whose sender IP has a pending entry, `arp_in` makes exactly one call of
`ethernet_out`, with the buffered packet, the sender link address of the request
and the IPv4 protocol identifier; no call carries the ARP protocol identifier, so
no reply is sent. -/
theorem arp_in_flush_before_reply (cfg : Config) (s : State) (now : Nat) (buf : buf_t)
    (src_mac : mac_addr) (P : buf_t)
    (hvalid : arp_valid buf)
    (_hreq : swap16 (arp_pkt_at buf.payload buf.data).opcode16 = ARP_REQUEST)
    (_htarget : (arp_pkt_at buf.payload buf.data).target_ip = cfg.net_if_ip)
    (hpending : map_get s.arp_buf now (arp_pkt_at buf.payload buf.data).sender_ip = some P) :
    (arp_in cfg s now buf src_mac).2 =
        [⟨P, (arp_pkt_at buf.payload buf.data).sender_mac, NET_PROTOCOL_IP⟩] ∧
    ∀ c ∈ (arp_in cfg s now buf src_mac).2, c.protocol ≠ NET_PROTOCOL_ARP := by
  rw [arp_in_of_valid cfg s now buf src_mac hvalid, hpending]
  refine ⟨rfl, ?_⟩
  intro c hc
  simp only [List.mem_singleton] at hc
  rw [hc]
  show NET_PROTOCOL_IP ≠ NET_PROTOCOL_ARP
  decide

/-- Witness of C11: the request `requestB` asks for the local address while `pktP`
is pending for its sender. -/
theorem arp_in_flush_before_reply_witness :
    swap16 (arp_pkt_at requestB.payload requestB.data).opcode16 = ARP_REQUEST ∧
    (arp_pkt_at requestB.payload requestB.data).target_ip = cfgA.net_if_ip ∧
    (arp_in cfgA sPending 6 requestB macB).2 =
        [⟨pktP, (arp_pkt_at requestB.payload requestB.data).sender_mac, NET_PROTOCOL_IP⟩] ∧
    ∀ c ∈ (arp_in cfgA sPending 6 requestB macB).2, c.protocol ≠ NET_PROTOCOL_ARP :=
  ⟨by decide, by decide,
   arp_in_flush_before_reply cfgA sPending 6 requestB macB pktP (by decide) (by decide)
     (by decide) (by decide)⟩

/-! ## Frame effect -/

/-- C13: for every state with a pending entry `P` for IP `X` and every validated
inbound packet with sender IP `X`, when the send of the flushed packet fails
(padding or header insertion fails, or `driver_send` reports failure), `arp_in`
still removes the pending entry for `X`, makes the one call of `ethernet_out` and
no other, and ends in the state that depends on neither the packet `P` nor the
outcome: the cache with the sender IP set and the pending store with `X` deleted,
as when the send succeeds. -/
theorem arp_in_flush_transport_failure (cfg : Config) (driver_send : List Nat → Int)
    (s : State) (now : Nat) (buf : buf_t) (src_mac : mac_addr) (X : ip_addr) (P : buf_t)
    (hvalid : arp_valid buf)
    (hX : (arp_pkt_at buf.payload buf.data).sender_ip = X)
    (hpending : map_get s.arp_buf now X = some P)
    (_hfail : eth_call_fails cfg driver_send
      ⟨P, (arp_pkt_at buf.payload buf.data).sender_mac, NET_PROTOCOL_IP⟩ = true) :
    (∀ t, map_get (arp_in cfg s now buf src_mac).1.arp_buf t X = none) ∧
    (arp_in cfg s now buf src_mac).2 =
        [⟨P, (arp_pkt_at buf.payload buf.data).sender_mac, NET_PROTOCOL_IP⟩] ∧
    (arp_in cfg s now buf src_mac).1 =
      { s with
        arp_table := map_set s.arp_table now X src_mac
        arp_buf := map_delete s.arp_buf X } := by
  rw [arp_in_of_valid cfg s now buf src_mac hvalid, hX, hpending]
  refine ⟨?_, rfl, rfl⟩
  intro t
  exact map_get_map_delete_same _ _ _

/-- Witness of C13: header insertion fails for the pending packet `pktNoRoom`, and
the driver refuses the frame of the pending packet `pktP`; both entries are
removed. -/
theorem arp_in_flush_transport_failure_witness :
    (ethernet_out cfgA pktNoRoom macB NET_PROTOCOL_IP).2 = none ∧
    ((∀ t, map_get (arp_in cfgA sPendingNoRoom 6 replyB macB).1.arp_buf t ipB = none) ∧
     (arp_in cfgA sPendingNoRoom 6 replyB macB).2 =
        [⟨pktNoRoom, (arp_pkt_at replyB.payload replyB.data).sender_mac, NET_PROTOCOL_IP⟩] ∧
     (arp_in cfgA sPendingNoRoom 6 replyB macB).1 =
      { sPendingNoRoom with
        arp_table := map_set sPendingNoRoom.arp_table 6 ipB macB
        arp_buf := map_delete sPendingNoRoom.arp_buf ipB }) ∧
    ((∀ t, map_get (arp_in cfgA sPending 6 replyB macB).1.arp_buf t ipB = none) ∧
     (arp_in cfgA sPending 6 replyB macB).2 =
        [⟨pktP, (arp_pkt_at replyB.payload replyB.data).sender_mac, NET_PROTOCOL_IP⟩] ∧
     (arp_in cfgA sPending 6 replyB macB).1 =
      { sPending with
        arp_table := map_set sPending.arp_table 6 ipB macB
        arp_buf := map_delete sPending.arp_buf ipB }) :=
  ⟨by decide,
   arp_in_flush_transport_failure cfgA driverUp sPendingNoRoom 6 replyB macB ipB pktNoRoom
     (by decide) (by decide) (by decide) (by decide),
   arp_in_flush_transport_failure cfgA driverDown sPending 6 replyB macB ipB pktP
     (by decide) (by decide) (by decide) (by decide)⟩

/-! ## Start-up -/

set_option maxRecDepth 8000 in
/-- C14, evaluated: `arp_init` with a zero-filled transmit buffer and local address
10.0.0.1 leaves both maps empty and makes one call of `ethernet_out`, to the
broadcast address with the ARP protocol identifier; the buffer of that call is 28
zero bytes, whose opcode is not request and whose target IP is not the local IP. -/
theorem arp_init_evaluated :
    (arp_init cfgA txZero 0).1.arp_table.entries = [] ∧
    (arp_init cfgA txZero 0).1.arp_buf.entries = [] ∧
    (arp_init cfgA txZero 0).2 = [⟨txZeroInit, ether_broadcast_mac, NET_PROTOCOL_ARP⟩] ∧
    buf_bytes txZeroInit = List.replicate 28 0 ∧
    swap16 (arp_pkt_at txZeroInit.payload txZeroInit.data).opcode16 ≠ ARP_REQUEST ∧
    (arp_pkt_at txZeroInit.payload txZeroInit.data).target_ip ≠ cfgA.net_if_ip := by
  decide

/-! ## Disjointness of cache and pending store -/

/-- C15: in every state reached from `arp_init` by a sequence of `arp_out` and
`arp_in` calls along which the clock never runs backwards, and at every time from
the last call on, no IP address reads as present both in the cache and in the
pending store. -/
theorem cache_pending_disjoint (cfg : Config) (txbuf : buf_t) (t0 : Nat) (ops : List arp_op)
    (hord : times_ordered t0 ops) (k : ip_addr) (t : Nat) (ht : last_time t0 ops ≤ t) :
    map_get (arp_run cfg (arp_init cfg txbuf t0).1 ops).arp_table t k = none ∨
    map_get (arp_run cfg (arp_init cfg txbuf t0).1 ops).arp_buf t k = none := by
  refine arp_run_disjoint cfg ops (arp_init cfg txbuf t0).1 t0 ?_ hord k t ht
  intro k2 t2 _
  left
  unfold arp_init
  rw [(arp_req_maps cfg _ t0 cfg.net_if_ip).1]
  rfl

/-- Witness of C15: after the three calls of the scenario, at time 6, the address
10.0.0.2 is in the cache and not in the pending store. -/
theorem cache_pending_disjoint_witness :
    times_ordered 0 opsScenario ∧
    map_get (arp_run cfgA (arp_init cfgA txZero 0).1 opsScenario).arp_table 6 ipB = some macB ∧
    (map_get (arp_run cfgA (arp_init cfgA txZero 0).1 opsScenario).arp_table 6 ipB = none ∨
     map_get (arp_run cfgA (arp_init cfgA txZero 0).1 opsScenario).arp_buf 6 ipB = none) :=
  ⟨⟨by decide, by decide, by decide, trivial⟩, by decide,
   cache_pending_disjoint cfgA txZero 0 opsScenario ⟨by decide, by decide, by decide, trivial⟩
     ipB 6 (by decide)⟩

/-! ## Lemmas on reading memory -/

theorem mem_read_length (mem : List Nat) (off n : Nat) : (mem_read mem off n).length = n := by
  induction n generalizing off with
  | zero => rfl
  | succ n ih => simp [mem_read, ih]

theorem mem_read_add (mem : List Nat) (off a b : Nat) :
    mem_read mem off (a + b) = mem_read mem off a ++ mem_read mem (off + a) b := by
  induction a generalizing off with
  | zero => simp [mem_read]
  | succ a ih =>
    have h : a + 1 + b = (a + b) + 1 := by omega
    rw [h]
    simp only [mem_read, ih, List.cons_append]
    have h2 : off + 1 + a = off + (a + 1) := by omega
    rw [h2]

theorem mem_read_append_left (pre rest : List Nat) (off n : Nat) (h : off + n ≤ pre.length) :
    mem_read (pre ++ rest) off n = mem_read pre off n := by
  induction n generalizing off with
  | zero => rfl
  | succ n ih =>
    simp only [mem_read]
    rw [ih (off + 1) (by omega)]
    congr 1
    unfold mem_byte
    rw [List.getD_eq_getElem?_getD, List.getD_eq_getElem?_getD,
      List.getElem?_append_left (by omega)]

theorem mem_read_append_right (pre rest : List Nat) (off n : Nat) :
    mem_read (pre ++ rest) (pre.length + off) n = mem_read rest off n := by
  induction n generalizing off with
  | zero => rfl
  | succ n ih =>
    simp only [mem_read]
    rw [Nat.add_assoc, ih (off + 1)]
    congr 1
    unfold mem_byte
    rw [List.getD_eq_getElem?_getD, List.getD_eq_getElem?_getD,
      List.getElem?_append_right (by omega), Nat.add_sub_cancel_left]

theorem mem_read_self (l : List Nat) : mem_read l 0 l.length = l := by
  induction l with
  | nil => rfl
  | cons a l ih =>
    simp only [List.length_cons, mem_read]
    have h := mem_read_append_right [a] l 0 l.length
    simp only [List.length_singleton, List.singleton_append] at h
    rw [Nat.zero_add, h, ih]
    rfl

theorem mem_read_memcpy_same (mem : List Nat) (off : Nat) (src : List Nat)
    (h : off ≤ mem.length) : mem_read (memcpy mem off src) off src.length = src := by
  unfold memcpy
  have hl : (mem.take off).length = off := by simp [h]
  have h1 := mem_read_append_right (mem.take off) (src ++ mem.drop (off + src.length)) 0
    src.length
  rw [hl, Nat.add_zero] at h1
  rw [List.append_assoc, h1, mem_read_append_left _ _ _ _ (by omega), mem_read_self]

theorem mem_read_memcpy_before (mem : List Nat) (off : Nat) (src : List Nat) (o n : Nat)
    (h : off ≤ mem.length) (hb : o + n ≤ off) :
    mem_read (memcpy mem off src) o n = mem_read mem o n := by
  unfold memcpy
  have hl : (mem.take off).length = off := by simp [h]
  rw [List.append_assoc, mem_read_append_left _ _ _ _ (by omega)]
  conv_rhs => rw [← List.take_append_drop off mem]
  rw [mem_read_append_left _ _ _ _ (by omega)]

theorem mem_read_memcpy_after (mem : List Nat) (off : Nat) (src : List Nat) (n : Nat)
    (h : off + src.length ≤ mem.length) :
    mem_read (memcpy mem off src) (off + src.length) n = mem_read mem (off + src.length) n := by
  unfold memcpy
  have hl : (mem.take off ++ src).length = off + src.length := by
    simp only [List.length_append, List.length_take]
    omega
  have h1 := mem_read_append_right (mem.take off ++ src) (mem.drop (off + src.length)) 0 n
  rw [hl, Nat.add_zero] at h1
  rw [h1]
  have h2 := mem_read_append_right (mem.take (off + src.length)) (mem.drop (off + src.length)) 0 n
  have hl2 : (mem.take (off + src.length)).length = off + src.length := by simp [h]
  rw [hl2, Nat.add_zero, List.take_append_drop] at h2
  rw [h2]

theorem memcpy_length (mem : List Nat) (off : Nat) (src : List Nat)
    (h : off + src.length ≤ mem.length) : (memcpy mem off src).length = mem.length := by
  unfold memcpy
  simp only [List.length_append, List.length_take, List.length_drop]
  omega

theorem memcpy_adjacent (mem : List Nat) (off : Nat) (a b : List Nat)
    (h : off + a.length ≤ mem.length) :
    memcpy (memcpy mem off a) (off + a.length) b = memcpy mem off (a ++ b) := by
  unfold memcpy
  have hl : (mem.take off ++ a).length = off + a.length := by
    simp only [List.length_append, List.length_take]
    omega
  have h1 : List.take (off + a.length) (mem.take off ++ a ++ mem.drop (off + a.length)) =
      mem.take off ++ a := by
    rw [← hl, List.take_left]
  have h2 : List.drop (off + a.length + b.length)
      (mem.take off ++ a ++ mem.drop (off + a.length)) =
      mem.drop (off + (a ++ b).length) := by
    have hb : off + a.length + b.length = (mem.take off ++ a).length + b.length := by omega
    rw [hb, List.drop_append, List.drop_drop]
    congr 1
    simp only [List.length_append]
    omega
  rw [h1, h2]
  simp only [List.append_assoc]

/-! ## Lemmas on the Ethernet frame -/

/-- The three header writes of `ethernet_out`, read back with what follows them. -/
theorem eth_hdr_write (pl : List Nat) (d L : Nat) (M S : mac_addr) (x : Nat)
    (h : d + sizeof_ether_hdr_t + L ≤ pl.length) :
    mem_read
        (memcpy (memcpy (memcpy pl d (mac_bytes M)) (d + NET_MAC_LEN) (mac_bytes S))
          (d + 2 * NET_MAC_LEN) (u16_bytes x))
        d (L + sizeof_ether_hdr_t) =
      mac_bytes M ++ mac_bytes S ++ u16_bytes x ++ mem_read pl (d + sizeof_ether_hdr_t) L := by
  have e1 : d + NET_MAC_LEN = d + (mac_bytes M).length := rfl
  have e2 : d + 2 * NET_MAC_LEN = d + (mac_bytes M ++ mac_bytes S).length := rfl
  have e3 : L + sizeof_ether_hdr_t =
      (mac_bytes M ++ mac_bytes S ++ u16_bytes x).length + L := by
    simp [mac_bytes, u16_bytes, sizeof_ether_hdr_t]
    omega
  have e4 : d + sizeof_ether_hdr_t = d + (mac_bytes M ++ mac_bytes S ++ u16_bytes x).length := rfl
  have hm : (mac_bytes M).length = 6 := rfl
  have hs : (mac_bytes M ++ mac_bytes S).length = 12 := rfl
  have hh : (mac_bytes M ++ mac_bytes S ++ u16_bytes x).length = 14 := rfl
  have h14 : sizeof_ether_hdr_t = 14 := rfl
  rw [e1, memcpy_adjacent _ _ _ _ (by omega), e2, memcpy_adjacent _ _ _ _ (by omega), e3,
    mem_read_add, mem_read_memcpy_same _ _ _ (by omega), e4,
    mem_read_memcpy_after _ _ _ _ (by omega)]

theorem proto_bytes (p : Nat) :
    u16_bytes (swap16 (p % 65536)) = [(p / 256) % 256, p % 256] := by
  have hlo : p % 65536 % 256 = p % 256 := by omega
  have hhi : p % 65536 / 256 % 256 = p / 256 % 256 := by omega
  have hlo2 : p % 256 < 256 := Nat.mod_lt _ (by decide)
  have hhi2 : p / 256 % 256 < 256 := Nat.mod_lt _ (by decide)
  simp only [u16_bytes, swap16, hlo, hhi]
  generalize p % 256 = lo at hlo2
  generalize p / 256 % 256 = hi at hhi2
  congr 1
  · omega
  · congr 1
    omega

theorem memcpy_length_ge (mem : List Nat) (off : Nat) (src : List Nat) (h : off ≤ mem.length) :
    off + src.length ≤ (memcpy mem off src).length := by
  unfold memcpy
  simp only [List.length_append, List.length_take, List.length_drop]
  omega

/-- The padded payload read back: the old bytes and then the zeros. -/
theorem mem_read_padded (pl : List Nat) (d len pad : Nat) (h : d + len ≤ pl.length) :
    mem_read (memset pl (d + len) 0 pad) d (len + pad) =
      mem_read pl d len ++ List.replicate pad 0 := by
  unfold memset
  rw [mem_read_add, mem_read_memcpy_before _ _ _ _ _ h (Nat.le_refl _)]
  have h2 := mem_read_memcpy_same pl (d + len) (List.replicate pad 0) h
  rw [List.length_replicate] at h2
  rw [h2]

/-- The frame `ethernet_out` hands to `driver_send`: destination, local address,
protocol identifier in big-endian order, the payload and its padding. -/
theorem ethernet_out_frame_eq (cfg : Config) (B : buf_t) (M : mac_addr) (p : Nat)
    (frame : List Nat)
    (hwf : B.data + B.len ≤ B.payload.length)
    (hout : (ethernet_out cfg B M p).2 = some frame) :
    frame = mac_bytes M ++ mac_bytes cfg.net_if_mac ++ [(p / 256) % 256, p % 256] ++
      (buf_bytes B ++ List.replicate (ETHERNET_MIN_TRANSPORT_UNIT - B.len) 0) := by
  have h14 : sizeof_ether_hdr_t = 14 := rfl
  have h46 : ETHERNET_MIN_TRANSPORT_UNIT = 46 := rfl
  unfold ethernet_out at hout
  by_cases hshort : B.len < ETHERNET_MIN_TRANSPORT_UNIT
  · rw [if_pos hshort] at hout
    unfold buf_add_padding at hout
    by_cases hpad : cfg.BUF_MAX_LEN ≤ B.data + B.len + (ETHERNET_MIN_TRANSPORT_UNIT - B.len)
    · rw [if_pos hpad] at hout
      simp at hout
    · rw [if_neg hpad] at hout
      unfold buf_add_header at hout
      by_cases hroom : B.data < sizeof_ether_hdr_t
      · simp [hroom] at hout
      · simp only [hroom, if_false, ne_eq, not_true_eq_false, Option.some.injEq] at hout
        rw [← hout, ← proto_bytes]
        unfold buf_bytes
        simp only
        have hge := memcpy_length_ge B.payload (B.data + B.len)
          (List.replicate (ETHERNET_MIN_TRANSPORT_UNIT - B.len) 0) hwf
        rw [List.length_replicate] at hge
        have hd : B.data - sizeof_ether_hdr_t + sizeof_ether_hdr_t = B.data := by omega
        rw [eth_hdr_write _ _ _ _ _ _ (by unfold memset; omega), hd,
          mem_read_padded _ _ _ _ hwf]
  · rw [if_neg hshort] at hout
    unfold buf_add_header at hout
    by_cases hroom : B.data < sizeof_ether_hdr_t
    · simp [hroom] at hout
    · simp only [hroom, if_false, ne_eq, not_true_eq_false, Option.some.injEq] at hout
      rw [← hout, ← proto_bytes]
      unfold buf_bytes
      simp only
      have hd : B.data - sizeof_ether_hdr_t + sizeof_ether_hdr_t = B.data := by omega
      have hz : ETHERNET_MIN_TRANSPORT_UNIT - B.len = 0 := by omega
      rw [eth_hdr_write _ _ _ _ _ _ (by omega), hd, hz, List.replicate_zero, List.append_nil]

/-! ## Ethernet framing -/

/-- C18: for every payload buffer whose valid bytes lie in its backing array and
for which padding and header insertion succeed, the frame `ethernet_out` hands to
`driver_send` has length max(n, 46) + 14; its first 6 bytes are the destination
MAC argument, the next 6 the local MAC, the next 2 the protocol identifier (as a
16-bit value) in big-endian order, and the payload bytes follow unchanged, then
the zero padding. -/
theorem ethernet_out_frame_layout (cfg : Config) (B : buf_t) (M : mac_addr) (p : Nat)
    (frame : List Nat)
    (hwf : B.data + B.len ≤ B.payload.length)
    (hout : (ethernet_out cfg B M p).2 = some frame) :
    frame.length = max B.len ETHERNET_MIN_TRANSPORT_UNIT + sizeof_ether_hdr_t ∧
    frame.take 6 = mac_bytes M ∧
    (frame.drop 6).take 6 = mac_bytes cfg.net_if_mac ∧
    (frame.drop 12).take 2 = [(p / 256) % 256, p % 256] ∧
    (frame.drop 14).take B.len = buf_bytes B ∧
    frame.drop 14 = buf_bytes B ++ List.replicate (ETHERNET_MIN_TRANSPORT_UNIT - B.len) 0 := by
  have hf := ethernet_out_frame_eq cfg B M p frame hwf hout
  have hb : (buf_bytes B).length = B.len := mem_read_length _ _ _
  have h46 : ETHERNET_MIN_TRANSPORT_UNIT = 46 := rfl
  have h14 : sizeof_ether_hdr_t = 14 := rfl
  rw [hf]
  refine ⟨?_, ?_, ?_, ?_, ?_, ?_⟩
  · simp only [List.length_append, hb, List.length_replicate, mac_bytes, List.length_cons,
      List.length_nil]
    omega
  · simp [mac_bytes]
  · simp [mac_bytes]
  · simp [mac_bytes]
  · simp only [mac_bytes, List.cons_append, List.nil_append, List.drop_succ_cons, List.drop_zero]
    rw [← hb, List.take_left]
  · simp [mac_bytes]

/-- Witness of C18: the frame of the three-byte packet `pktP` sent to BB as IPv4. -/
theorem ethernet_out_frame_layout_witness :
    ∃ frame : List Nat,
      (ethernet_out cfgA pktP macB NET_PROTOCOL_IP).2 = some frame ∧
      frame.length = max pktP.len ETHERNET_MIN_TRANSPORT_UNIT + sizeof_ether_hdr_t ∧
      frame.take 6 = mac_bytes macB ∧
      (frame.drop 6).take 6 = mac_bytes cfgA.net_if_mac ∧
      (frame.drop 12).take 2 = [(NET_PROTOCOL_IP / 256) % 256, NET_PROTOCOL_IP % 256] ∧
      (frame.drop 14).take pktP.len = buf_bytes pktP ∧
      frame.drop 14 =
        buf_bytes pktP ++ List.replicate (ETHERNET_MIN_TRANSPORT_UNIT - pktP.len) 0 :=
  ⟨mac_bytes macB ++ mac_bytes cfgA.net_if_mac ++ [8, 0] ++ ([7, 8, 9] ++ List.replicate 43 0),
   by decide,
   ethernet_out_frame_layout cfgA pktP macB NET_PROTOCOL_IP _ (by decide) (by decide)⟩

/-- C17: for every payload buffer `B` whose valid bytes lie in its backing array,
destination MAC `M` and 16-bit protocol identifier `p` for which `ethernet_out`
reaches `driver_send`, `ethernet_in` on a buffer that holds the frame calls
`net_in` with the protocol `p`, the local MAC as source address, and a buffer
whose bytes are those of `B` followed by the zero padding up to 46 bytes (none
when `B` has 46 bytes or more). -/
theorem ethernet_roundtrip (cfg : Config) (B : buf_t) (M : mac_addr) (p : Nat)
    (frame : List Nat) (rx : buf_t)
    (hp : p < 65536)
    (hwf : B.data + B.len ≤ B.payload.length)
    (hout : (ethernet_out cfg B M p).2 = some frame)
    (hrx : buf_bytes rx = frame) :
    ∃ up : net_in_call,
      ethernet_in rx = some up ∧ up.protocol = p ∧ up.src = cfg.net_if_mac ∧
      buf_bytes up.buf =
        buf_bytes B ++ List.replicate (ETHERNET_MIN_TRANSPORT_UNIT - B.len) 0 := by
  have hf := ethernet_out_frame_eq cfg B M p frame hwf hout
  have h14 : sizeof_ether_hdr_t = 14 := rfl
  rw [← hrx] at hf
  unfold buf_bytes at hf ⊢
  generalize mem_read B.payload B.data B.len ++
    List.replicate (ETHERNET_MIN_TRANSPORT_UNIT - B.len) 0 = pay at hf ⊢
  have hlen := congrArg List.length hf
  rw [mem_read_length] at hlen
  simp only [List.length_append, mac_bytes, List.length_cons, List.length_nil] at hlen
  have hsplit : rx.len = 14 + pay.length := by omega
  rw [hsplit, mem_read_add] at hf
  obtain ⟨hhdr, hrest⟩ := List.append_inj hf (by simp [mem_read_length, mac_bytes])
  simp only [mem_read, mac_bytes, List.cons_append, List.nil_append, List.cons.injEq,
    and_true, Nat.add_assoc, Nat.reduceAdd] at hhdr
  obtain ⟨d0, d1, d2, d3, d4, d5, s0, s1, s2, s3, s4, s5, t0, t1⟩ := hhdr
  have hge : ¬ rx.len < sizeof_ether_hdr_t := by omega
  refine ⟨⟨{ rx with len := rx.len - sizeof_ether_hdr_t, data := rx.data + sizeof_ether_hdr_t },
    p, cfg.net_if_mac⟩, ?_, rfl, rfl, ?_⟩
  · unfold ethernet_in buf_remove_header
    simp only [hge, if_false, ne_eq, not_true_eq_false, Option.some.injEq,
      net_in_call.mk.injEq, true_and]
    constructor
    · simp only [u16_at, NET_MAC_LEN, Nat.add_assoc, Nat.reduceAdd, Nat.reduceMul, t0, t1,
        swap16]
      have hhi : p / 256 % 256 = p / 256 := by omega
      have hdecomp : p = 256 * (p / 256) + p % 256 := by omega
      have hlo : p % 256 < 256 := Nat.mod_lt _ (by decide)
      have hhi2 : p / 256 < 256 := by omega
      rw [hhi]
      generalize p / 256 = hi at hdecomp hhi2 ⊢
      generalize p % 256 = lo at hdecomp hlo ⊢
      have e1 : (hi + 256 * lo) % 256 = hi := by omega
      have e2 : (hi + 256 * lo) / 256 = lo := by omega
      rw [e1, e2]
      omega
    · simp only [mac_at, NET_MAC_LEN, Nat.add_assoc, Nat.reduceAdd, s0, s1, s2, s3, s4, s5]
  · simp only
    have hl : rx.len - sizeof_ether_hdr_t = pay.length := by omega
    rw [hl, h14, hrest]

/-- Witness of C17: the frame of `pktP` sent to BB as IPv4, received in a buffer
that holds just the frame. -/
theorem ethernet_roundtrip_witness :
    ∃ up : net_in_call,
      ethernet_in
          (rx_of (mac_bytes macB ++ mac_bytes cfgA.net_if_mac ++ [8, 0] ++
            ([7, 8, 9] ++ List.replicate 43 0))) = some up ∧
      up.protocol = NET_PROTOCOL_IP ∧ up.src = cfgA.net_if_mac ∧
      buf_bytes up.buf =
        buf_bytes pktP ++ List.replicate (ETHERNET_MIN_TRANSPORT_UNIT - pktP.len) 0 :=
  ethernet_roundtrip cfgA pktP macB NET_PROTOCOL_IP
    (mac_bytes macB ++ mac_bytes cfgA.net_if_mac ++ [8, 0] ++ ([7, 8, 9] ++ List.replicate 43 0))
    (rx_of (mac_bytes macB ++ mac_bytes cfgA.net_if_mac ++ [8, 0] ++
      ([7, 8, 9] ++ List.replicate 43 0)))
    (by decide) (by decide) (by decide) (by decide)

/-! ## The unreachable message -/

set_option maxRecDepth 8000 in
/-- C16, evaluated: for the datagram `dgram`, whose data begins with its IP header,
`icmp_unreachable` hands `ip_out` a 36-byte message with type 3, the given code,
identifier and sequence number zero, and the received IP header at offset 8; the
8 bytes after that copy are the first 8 bytes of the IP header once more, not the
8 bytes of data that follow the header in the datagram. -/
theorem icmp_unreachable_repeats_header :
    ∃ tx : buf_t,
      (icmp_unreachable 160 sampleChecksum txZero dgram ipB 3).2 =
        [⟨tx, ipB, NET_PROTOCOL_ICMP⟩] ∧
      tx.len = sizeof_icmp_hdr_t + sizeof_ip_hdr_t + 8 ∧
      mem_byte tx.payload tx.data = ICMP_TYPE_UNREACH ∧
      mem_byte tx.payload (tx.data + 1) = 3 ∧
      u16_at tx.payload (tx.data + 4) = 0 ∧
      u16_at tx.payload (tx.data + 6) = 0 ∧
      mem_read tx.payload (tx.data + 8) 20 = mem_read dgram.payload dgram.data 20 ∧
      mem_read tx.payload (tx.data + 28) 8 = [0x45, 0, 0, 28, 0, 0, 0, 0] ∧
      mem_read dgram.payload (dgram.data + 20) 8 =
        [0xD1, 0xD2, 0xD3, 0xD4, 0xD5, 0xD6, 0xD7, 0xD8] :=
  ⟨(icmp_unreachable 160 sampleChecksum txZero dgram ipB 3).1, by decide⟩

/-! ## Lemmas on writes that do not overlap a read -/

theorem mem_byte_memcpy_outside (mem : List Nat) (off : Nat) (src : List Nat) (i : Nat)
    (h : off + src.length ≤ mem.length) (hi : i < off ∨ off + src.length ≤ i) :
    mem_byte (memcpy mem off src) i = mem_byte mem i := by
  unfold mem_byte memcpy
  have hl : (mem.take off).length = off := by
    simp only [List.length_take]
    omega
  rw [List.getD_eq_getElem?_getD, List.getD_eq_getElem?_getD]
  congr 1
  rcases hi with hi | hi
  · rw [List.append_assoc, List.getElem?_append_left (by omega), List.getElem?_take_of_lt hi]
  · have hl2 : (mem.take off ++ src).length = off + src.length := by
      simp only [List.length_append, hl]
    rw [List.getElem?_append_right (by omega), hl2, List.getElem?_drop]
    congr 1
    omega

theorem mem_read_congr (m1 m2 : List Nat) (o n : Nat)
    (h : ∀ i, o ≤ i → i < o + n → mem_byte m1 i = mem_byte m2 i) :
    mem_read m1 o n = mem_read m2 o n := by
  induction n generalizing o with
  | zero => rfl
  | succ n ih =>
    simp only [mem_read]
    rw [h o (Nat.le_refl _) (by omega), ih (o + 1) (fun i h1 h2 => h i (by omega) (by omega))]

theorem mem_read_memcpy_outside (mem : List Nat) (off : Nat) (src : List Nat) (o n : Nat)
    (h : off + src.length ≤ mem.length) (ho : o + n ≤ off ∨ off + src.length ≤ o) :
    mem_read (memcpy mem off src) o n = mem_read mem o n := by
  apply mem_read_congr
  intro i h1 h2
  apply mem_byte_memcpy_outside _ _ _ _ h
  omega

theorem u16_at_of_read (mem : List Nat) (o a b : Nat) (h : mem_read mem o 2 = [a, b]) :
    u16_at mem o = a + 256 * b := by
  simp only [mem_read, List.cons.injEq, and_true] at h
  unfold u16_at
  rw [h.1, h.2]

theorem mem_byte_lt (mem : List Nat) (i : Nat) (h : ∀ b ∈ mem, b < 256) :
    mem_byte mem i < 256 := by
  unfold mem_byte
  rw [List.getD_eq_getElem?_getD]
  cases hg : mem[i]? with
  | none => simp
  | some b =>
    simp only [Option.getD_some]
    exact h b (List.getElem?_mem hg)

theorem u16_roundtrip (x : Nat) (h : x < 65536) : x % 256 + 256 * (x / 256 % 256) = x := by
  omega

/-- The writes of `icmp_resp` read back: type and code, identifier, sequence number
and the bytes after the header, whatever the two checksum writes put at offset 2. -/
theorem echo_writes (pl : List Nat) (d t c : Nat) (idb seqb rest z ckb : List Nat)
    (hid : idb.length = 2) (hseq : seqb.length = 2) (hz : z.length = 2) (hck : ckb.length = 2)
    (h : d + 8 + rest.length ≤ pl.length) :
    mem_read
        (memcpy (memcpy (memcpy (memcpy (memcpy (memcpy (memcpy pl d [t]) (d + 1) [c])
          (d + 4) idb) (d + 6) seqb) (d + 8) rest) (d + 2) z) (d + 2) ckb) d 2 = [t, c] ∧
    mem_read
        (memcpy (memcpy (memcpy (memcpy (memcpy (memcpy (memcpy pl d [t]) (d + 1) [c])
          (d + 4) idb) (d + 6) seqb) (d + 8) rest) (d + 2) z) (d + 2) ckb) (d + 4) 2 = idb ∧
    mem_read
        (memcpy (memcpy (memcpy (memcpy (memcpy (memcpy (memcpy pl d [t]) (d + 1) [c])
          (d + 4) idb) (d + 6) seqb) (d + 8) rest) (d + 2) z) (d + 2) ckb) (d + 6) 2 = seqb ∧
    mem_read
        (memcpy (memcpy (memcpy (memcpy (memcpy (memcpy (memcpy pl d [t]) (d + 1) [c])
          (d + 4) idb) (d + 6) seqb) (d + 8) rest) (d + 2) z) (d + 2) ckb) (d + 8)
        rest.length = rest := by
  have e12 : memcpy (memcpy pl d [t]) (d + 1) [c] = memcpy pl d [t, c] :=
    memcpy_adjacent pl d [t] [c] (by simp only [List.length_singleton]; omega)
  rw [e12]
  set p2 := memcpy pl d [t, c] with hp2
  have l2 : p2.length = pl.length :=
    memcpy_length _ _ _ (by simp only [List.length_cons, List.length_nil]; omega)
  set p3 := memcpy p2 (d + 4) idb with hp3
  have l3 : p3.length = pl.length := by
    rw [hp3, memcpy_length _ _ _ (by omega), l2]
  set p4 := memcpy p3 (d + 6) seqb with hp4
  have l4 : p4.length = pl.length := by
    rw [hp4, memcpy_length _ _ _ (by omega), l3]
  set p5 := memcpy p4 (d + 8) rest with hp5
  have l5 : p5.length = pl.length := by
    rw [hp5, memcpy_length _ _ _ (by omega), l4]
  set p6 := memcpy p5 (d + 2) z with hp6
  have l6 : p6.length = pl.length := by
    rw [hp6, memcpy_length _ _ _ (by omega), l5]
  refine ⟨?_, ?_, ?_, ?_⟩
  · rw [mem_read_memcpy_outside _ _ _ _ _ (by omega) (by omega), hp6,
      mem_read_memcpy_outside _ _ _ _ _ (by omega) (by omega), hp5,
      mem_read_memcpy_outside _ _ _ _ _ (by omega) (by omega), hp4,
      mem_read_memcpy_outside _ _ _ _ _ (by omega) (by omega), hp3,
      mem_read_memcpy_outside _ _ _ _ _ (by omega) (by omega), hp2]
    exact mem_read_memcpy_same pl d [t, c] (by omega)
  · rw [mem_read_memcpy_outside _ _ _ _ _ (by omega) (by omega), hp6,
      mem_read_memcpy_outside _ _ _ _ _ (by omega) (by omega), hp5,
      mem_read_memcpy_outside _ _ _ _ _ (by omega) (by omega), hp4,
      mem_read_memcpy_outside _ _ _ _ _ (by omega) (by omega), hp3]
    have h2 := mem_read_memcpy_same p2 (d + 4) idb (by omega)
    rw [hid] at h2
    exact h2
  · rw [mem_read_memcpy_outside _ _ _ _ _ (by omega) (by omega), hp6,
      mem_read_memcpy_outside _ _ _ _ _ (by omega) (by omega), hp5,
      mem_read_memcpy_outside _ _ _ _ _ (by omega) (by omega), hp4]
    have h2 := mem_read_memcpy_same p3 (d + 6) seqb (by omega)
    rw [hseq] at h2
    exact h2
  · rw [mem_read_memcpy_outside _ _ _ _ _ (by omega) (by omega), hp6,
      mem_read_memcpy_outside _ _ _ _ _ (by omega) (by omega), hp5]
    exact mem_read_memcpy_same p4 (d + 8) rest (by omega)

/-! ## Echo -/

/-- C19: for every inbound ICMP message at least as long as the ICMP header whose
type is echo request (its bytes being bytes, the transmit buffer having its
`BUF_MAX_LEN` bytes and the message fitting `buf_init`), `icmp_in` makes exactly
one call of `ip_out`, to the source IP with protocol ICMP, with a message of the
length of the request, type echo reply, code 0, and identifier, sequence number
and all bytes after the header equal to those of the request; for every message
shorter than the header or of another type, `icmp_in` makes no call. -/
theorem icmp_in_echo (BUF_MAX_LEN : Nat) (checksum16 : List Nat → Nat) (txbuf buf : buf_t)
    (src_ip : ip_addr) :
    (sizeof_icmp_hdr_t ≤ buf.len →
     mem_byte buf.payload buf.data = ICMP_TYPE_ECHO_REQUEST →
     buf.len < BUF_MAX_LEN / 2 →
     txbuf.payload.length = BUF_MAX_LEN →
     (∀ b ∈ buf.payload, b < 256) →
     ∃ tx : buf_t,
       (icmp_in BUF_MAX_LEN checksum16 txbuf buf src_ip).2 = [⟨tx, src_ip, NET_PROTOCOL_ICMP⟩] ∧
       tx.len = buf.len ∧
       mem_byte tx.payload tx.data = ICMP_TYPE_ECHO_REPLY ∧
       mem_byte tx.payload (tx.data + 1) = 0 ∧
       u16_at tx.payload (tx.data + 4) = u16_at buf.payload (buf.data + 4) ∧
       u16_at tx.payload (tx.data + 6) = u16_at buf.payload (buf.data + 6) ∧
       mem_read tx.payload (tx.data + sizeof_icmp_hdr_t) (buf.len - sizeof_icmp_hdr_t) =
         mem_read buf.payload (buf.data + sizeof_icmp_hdr_t) (buf.len - sizeof_icmp_hdr_t)) ∧
    ((buf.len < sizeof_icmp_hdr_t ∨ mem_byte buf.payload buf.data ≠ ICMP_TYPE_ECHO_REQUEST) →
     (icmp_in BUF_MAX_LEN checksum16 txbuf buf src_ip).2 = []) := by
  have h8 : sizeof_icmp_hdr_t = 8 := rfl
  constructor
  · intro hlen htype hfit htx hbytes
    have hinit : buf_init BUF_MAX_LEN txbuf buf.len =
        ({ txbuf with len := buf.len, data := BUF_MAX_LEN / 2 - buf.len }, 0) := by
      unfold buf_init
      rw [if_neg (by omega)]
    have hid : u16_at buf.payload (buf.data + 4) < 65536 := by
      have a := mem_byte_lt buf.payload (buf.data + 4) hbytes
      have b := mem_byte_lt buf.payload (buf.data + 4 + 1) hbytes
      unfold u16_at
      omega
    have hseq : u16_at buf.payload (buf.data + 6) < 65536 := by
      have a := mem_byte_lt buf.payload (buf.data + 6) hbytes
      have b := mem_byte_lt buf.payload (buf.data + 6 + 1) hbytes
      unfold u16_at
      omega
    unfold icmp_in
    rw [if_neg (by omega), if_pos htype]
    unfold icmp_resp
    simp only [hinit, h8]
    obtain ⟨r1, r2, r3, r4⟩ := echo_writes txbuf.payload (BUF_MAX_LEN / 2 - buf.len)
      ICMP_TYPE_ECHO_REPLY 0
      (u16_bytes (u16_at buf.payload (buf.data + 4)))
      (u16_bytes (u16_at buf.payload (buf.data + 6)))
      (mem_read buf.payload (buf.data + 8) (buf.len - 8))
      (u16_bytes 0)
      (u16_bytes (checksum16 (mem_read
        (memcpy (memcpy (memcpy (memcpy (memcpy (memcpy txbuf.payload
          (BUF_MAX_LEN / 2 - buf.len) [ICMP_TYPE_ECHO_REPLY])
          (BUF_MAX_LEN / 2 - buf.len + 1) [0])
          (BUF_MAX_LEN / 2 - buf.len + 4) (u16_bytes (u16_at buf.payload (buf.data + 4))))
          (BUF_MAX_LEN / 2 - buf.len + 6) (u16_bytes (u16_at buf.payload (buf.data + 6))))
          (BUF_MAX_LEN / 2 - buf.len + 8) (mem_read buf.payload (buf.data + 8) (buf.len - 8)))
          (BUF_MAX_LEN / 2 - buf.len + 2) (u16_bytes 0))
        (BUF_MAX_LEN / 2 - buf.len) buf.len)))
      rfl rfl rfl rfl (by rw [mem_read_length]; omega)
    rw [mem_read_length] at r4
    refine ⟨_, rfl, rfl, ?_, ?_, ?_, ?_, r4⟩
    · simp only [mem_read, List.cons.injEq, and_true] at r1
      exact r1.1
    · simp only [mem_read, List.cons.injEq, and_true] at r1
      exact r1.2
    · rw [u16_at_of_read _ _ _ _ r2]
      exact u16_roundtrip _ hid
    · rw [u16_at_of_read _ _ _ _ r3]
      exact u16_roundtrip _ hseq
  · intro h
    unfold icmp_in
    rcases h with h | h
    · rw [if_pos h]
    · by_cases hs : buf.len < sizeof_icmp_hdr_t
      · rw [if_pos hs]
      · rw [if_neg hs, if_neg h]

set_option maxRecDepth 8000 in
/-- Witness of C19: the echo request `echoRequest` from 10.0.0.2 is answered by one
reply that mirrors it, and the echo reply `echoReply` is not answered. -/
theorem icmp_in_echo_witness :
    (∃ tx : buf_t,
       (icmp_in 160 sampleChecksum txZero echoRequest ipB).2 = [⟨tx, ipB, NET_PROTOCOL_ICMP⟩] ∧
       tx.len = echoRequest.len ∧
       mem_byte tx.payload tx.data = ICMP_TYPE_ECHO_REPLY ∧
       mem_byte tx.payload (tx.data + 1) = 0 ∧
       u16_at tx.payload (tx.data + 4) = u16_at echoRequest.payload (echoRequest.data + 4) ∧
       u16_at tx.payload (tx.data + 6) = u16_at echoRequest.payload (echoRequest.data + 6) ∧
       mem_read tx.payload (tx.data + sizeof_icmp_hdr_t) (echoRequest.len - sizeof_icmp_hdr_t) =
         mem_read echoRequest.payload (echoRequest.data + sizeof_icmp_hdr_t)
           (echoRequest.len - sizeof_icmp_hdr_t)) ∧
    (icmp_in 160 sampleChecksum txZero echoReply ipB).2 = [] :=
  ⟨(icmp_in_echo 160 sampleChecksum txZero echoRequest ipB).1 (by decide) (by decide)
     (by decide) (by rfl) (by decide),
   (icmp_in_echo 160 sampleChecksum txZero echoReply ipB).2 (Or.inr (by decide))⟩

end NetStack
